import Mathlib

/-!
A verification development for the cotton-report extraction engine in
`lib/pdf-processor.ts`.  JavaScript numbers are modelled by `JSNum`:
NaN, the two infinities, or a finite value idealized as an exact
rational.  Strings are Lean strings, processed as character lists.
Each definition mirrors one function (or one code path) of the source
file; regular expressions of the source are implemented as dedicated
scanning functions with JavaScript leftmost-greedy semantics.

The arithmetic on rationals inside the executable definitions uses the
kernel-reducible wrappers `ratAdd`, `ratMul`, `ratInv`, `ratDiv`,
`ratNeg` (the standard `Rat` operations are `@[irreducible]`); the
bridge lemmas `ratAdd_eq` … `ratNeg_eq` identify them with the
ordinary field operations, which the specification statements use.
-/

set_option maxRecDepth 16000

/-- Kernel-reducible addition on `ℚ` (propositionally `· + ·`). -/
def ratAdd (a b : ℚ) : ℚ := mkRat (a.num * b.den + b.num * a.den) (a.den * b.den)

/-- Kernel-reducible multiplication on `ℚ` (propositionally `· * ·`). -/
def ratMul (a b : ℚ) : ℚ := mkRat (a.num * b.num) (a.den * b.den)

/-- Kernel-reducible inverse on `ℚ` (propositionally `·⁻¹`). -/
def ratInv (a : ℚ) : ℚ :=
  if 0 ≤ a.num then mkRat a.den a.num.toNat else mkRat (-(a.den : Int)) a.num.natAbs

/-- Kernel-reducible division on `ℚ` (propositionally `· / ·`). -/
def ratDiv (a b : ℚ) : ℚ := ratMul a (ratInv b)

/-- Kernel-reducible negation on `ℚ` (propositionally `-·`). -/
def ratNeg (a : ℚ) : ℚ := mkRat (-a.num) a.den

theorem ratAdd_eq (a b : ℚ) : ratAdd a b = a + b := by
  unfold ratAdd
  rw [Rat.mkRat_eq_div]
  push_cast
  conv_rhs => rw [← Rat.num_div_den a, ← Rat.num_div_den b]
  have ha : ((a.den : ℚ)) ≠ 0 := by positivity
  have hb : ((b.den : ℚ)) ≠ 0 := by positivity
  field_simp

theorem ratMul_eq (a b : ℚ) : ratMul a b = a * b := by
  unfold ratMul
  rw [Rat.mkRat_eq_div]
  push_cast
  conv_rhs => rw [← Rat.num_div_den a, ← Rat.num_div_den b]
  have ha : ((a.den : ℚ)) ≠ 0 := by positivity
  have hb : ((b.den : ℚ)) ≠ 0 := by positivity
  field_simp

theorem ratInv_eq (a : ℚ) : ratInv a = a⁻¹ := by
  unfold ratInv
  rw [Rat.inv_def']
  split
  · next h => rw [Rat.mkRat_eq_divInt, Int.toNat_of_nonneg h]
  · next h =>
    push_neg at h
    rw [Rat.mkRat_eq_divInt,
      show ((a.num.natAbs : ℤ)) = -a.num from by omega,
      Rat.divInt_neg, Int.neg_neg]

theorem ratDiv_eq (a b : ℚ) : ratDiv a b = a / b := by
  rw [ratDiv, ratMul_eq, ratInv_eq, div_eq_mul_inv]

theorem ratNeg_eq (a : ℚ) : ratNeg a = -a := by
  unfold ratNeg
  rw [Rat.mkRat_eq_div]
  push_cast
  rw [neg_div, Rat.num_div_den]

theorem foldl_ratAdd_eq (init : ℚ) (l : List ℚ) :
    l.foldl ratAdd init = l.foldl (· + ·) init := by
  induction l generalizing init with
  | nil => rfl
  | cons x xs ih => simp only [List.foldl, ratAdd_eq, ih]

/-- A JavaScript number: NaN, +Infinity, -Infinity, or a finite value
(idealized as an exact rational). -/
inductive JSNum where
  | nan : JSNum
  | posInf : JSNum
  | negInf : JSNum
  | fin : ℚ → JSNum
deriving DecidableEq, Repr

/-- A raw JavaScript cell/argument value as it reaches `parseNumericValue`. -/
inductive JSValue where
  | null : JSValue
  | undef : JSValue
  | str : String → JSValue
  | num : JSNum → JSValue
deriving DecidableEq, Repr

/-- JavaScript `isNaN` on a number. -/
def JSNum.isNaN : JSNum → Bool
  | .nan => true
  | _ => false

/-- JavaScript `isFinite` on a number. -/
def JSNum.isFinite : JSNum → Bool
  | .fin _ => true
  | _ => false

/-- The rational value of a finite `JSNum` (0 for NaN and infinities;
only applied where the source has established finiteness). -/
def JSNum.toQ : JSNum → ℚ
  | .fin q => q
  | _ => 0

/-- JavaScript `>` on numbers (false whenever NaN is involved). -/
def jsGt : JSNum → JSNum → Bool
  | .nan, _ => false
  | _, .nan => false
  | .posInf, .posInf => false
  | .posInf, _ => true
  | .negInf, _ => false
  | .fin _, .posInf => false
  | .fin _, .negInf => true
  | .fin q, .fin r => decide (r < q)

/-- JavaScript `<` on numbers. -/
def jsLt (a b : JSNum) : Bool := jsGt b a

/-- JavaScript `>=` on numbers (false whenever NaN is involved). -/
def jsGe (a b : JSNum) : Bool := !a.isNaN && !b.isNaN && !(jsGt b a)

/-- JavaScript `<=` on numbers. -/
def jsLe (a b : JSNum) : Bool := jsGe b a

/-- JavaScript `+` on numbers. -/
def jsAdd : JSNum → JSNum → JSNum
  | .nan, _ => .nan
  | _, .nan => .nan
  | .posInf, .negInf => .nan
  | .negInf, .posInf => .nan
  | .posInf, _ => .posInf
  | _, .posInf => .posInf
  | .negInf, _ => .negInf
  | _, .negInf => .negInf
  | .fin a, .fin b => .fin (ratAdd a b)

/-- JavaScript truthiness of a number (`0` and `NaN` are falsy). -/
def jsTruthy : JSNum → Bool
  | .nan => false
  | .fin q => decide (q ≠ 0)
  | _ => true

/-- Division of a JavaScript number by a positive finite constant
(as in `value / 25.4`). -/
def jsDivPos (v : JSNum) (c : ℚ) : JSNum :=
  match v with
  | .nan => .nan
  | .posInf => .posInf
  | .negInf => .negInf
  | .fin q => .fin (ratDiv q c)

/-- The whitespace characters recognized by `String.prototype.trim`
and by the `\s` regex class (ASCII portion, which is all this input
format uses). -/
def jsIsWhitespace (c : Char) : Bool :=
  c = ' ' || c = '\t' || c = '\n' || c = '\r' || c = '\x0b' || c = '\x0c'

/-- `String.prototype.trim`. -/
def jsTrim (l : List Char) : List Char :=
  ((l.dropWhile jsIsWhitespace).reverse.dropWhile jsIsWhitespace).reverse

/-- `String.prototype.replace(c, d)` with a single-character pattern:
replaces only the first occurrence. -/
def replaceFirst : List Char → Char → Char → List Char
  | [], _, _ => []
  | c :: t, a, b => if c = a then b :: t else c :: replaceFirst t a b

/-- `String.prototype.replace(/c/g, '')` with a single-character pattern:
removes every occurrence. -/
def removeAllChar (l : List Char) (a : Char) : List Char :=
  l.filter (fun c => c ≠ a)

/-- `String.prototype.lastIndexOf` for a single character (-1 if absent). -/
def lastIndexOfChar (l : List Char) (a : Char) : Int :=
  l.enum.foldl (fun acc p => if p.2 = a then (p.1 : Int) else acc) (-1)

/-- The character filter of `str.replace(/[^\d.-]/g, '')`. -/
def stripNonNumeric (l : List Char) : List Char :=
  l.filter (fun c => c.isDigit || c = '.' || c = '-')

/-- Numeric value of a digit list (most significant first). -/
def digitsToNat (l : List Char) : Nat :=
  l.foldl (fun acc c => 10 * acc + (c.toNat - '0'.toNat)) 0

/-- JavaScript `parseFloat`, for inputs drawn from the alphabet of
digits, `'.'` and `'-'` — exactly the strings this program feeds it
(they are produced by `replace(/[^\d.-]/g, '')` or pre-filtered by
`/^-?\d+\.?\d*$/`-style tests), so exponent and `Infinity` literals
cannot occur.  Parses the longest numeric prefix; `none` models NaN. -/
def jsParseFloat (s : String) : Option ℚ :=
  let l := s.data
  let (neg, l₁) :=
    match l with
    | '-' :: t => (true, t)
    | '+' :: t => (false, t)
    | t => (false, t)
  let ip := l₁.takeWhile Char.isDigit
  let l₂ := l₁.dropWhile Char.isDigit
  let fp :=
    match l₂ with
    | '.' :: t => t.takeWhile Char.isDigit
    | _ => []
  if ip.isEmpty && fp.isEmpty then none
  else
    let mag : ℚ := ratAdd (mkRat (digitsToNat ip) 1) (mkRat (digitsToNat fp) (10 ^ fp.length))
    some (if neg then ratNeg mag else mag)

/-- The comma/period separator normalization of `parseNumericValue`
(pdf-processor.ts:196-207): with both separators present the one
occurring later is the decimal separator and the other is stripped;
with only a comma present, its first occurrence becomes the decimal
point. -/
def normalizeSeparators (l : List Char) : List Char :=
  if l.contains ',' && l.contains '.' then
    if lastIndexOfChar l ',' > lastIndexOfChar l '.' then
      replaceFirst (removeAllChar l '.') ',' '.'
    else
      removeAllChar l ','
  else if l.contains ',' then replaceFirst l ',' '.'
  else l

/-- The string branch of `parseNumericValue`: trim, normalize
separators, strip remaining non-numeric characters, parse, 0 on
failure. -/
def parseNumericString (s : String) : JSNum :=
  if s = "" then .fin 0
  else
    match jsParseFloat (String.mk (stripNonNumeric (normalizeSeparators (jsTrim s.data)))) with
    | some q => .fin q
    | none => .fin 0

/-- `parseNumericValue` (pdf-processor.ts:186-214): null, undefined and
the empty string yield 0; a number is returned unchanged; a string is
parsed by `parseNumericString`. -/
def parseNumericValue (value : JSValue) : JSNum :=
  match value with
  | .null => .fin 0
  | .undef => .fin 0
  | .num n => n
  | .str s => parseNumericString s

/-- The validity filter of `calculateStats`:
`v > 0 && !isNaN(v) && isFinite(v)`. -/
def jsValidSample (v : JSNum) : Bool :=
  jsGt v (.fin 0) && !v.isNaN && v.isFinite

/-- min/avg/max triple produced by `calculateStats`.  The filtered
values are all finite (the filter demands `isFinite`), so `Math.min`,
the summed average and `Math.max` are exact rational operations. -/
structure Stats where
  min : ℚ
  avg : ℚ
  max : ℚ
deriving DecidableEq, Repr

/-- The rational values of the samples passing `calculateStats`'s filter. -/
def validSamples (values : List JSNum) : List ℚ :=
  (values.filter jsValidSample).map JSNum.toQ

/-- `calculateStats` (pdf-processor.ts:219-229). -/
def calculateStats (values : List JSNum) : Stats :=
  match validSamples values with
  | [] => ⟨0, 0, 0⟩
  | q :: qs =>
    ⟨qs.foldl min q,
     ratDiv ((q :: qs).foldl ratAdd 0) (mkRat (qs.length + 1 : Nat) 1),
     qs.foldl max q⟩

/-- `isValueInMillimeters` (pdf-processor.ts:277-281). -/
def isValueInMillimeters (v : JSNum) : Bool := jsGt v (.fin 2)

/-- `normalizeUhmToInches` (pdf-processor.ts:287-293). -/
def normalizeUhmToInches (v : JSNum) : JSNum :=
  if jsLe v (.fin 0) then .fin 0
  else if isValueInMillimeters v then jsDivPos v (mkRat 254 10)
  else v

-- #### Foldl min/max helper lemmas for the `calculateStats` specification

theorem foldl_min_cases (q : ℚ) (qs : List ℚ) :
    qs.foldl min q = q ∨ qs.foldl min q ∈ qs := by
  induction qs generalizing q with
  | nil => exact Or.inl rfl
  | cons x xs ih =>
    simp only [List.foldl_cons]
    rcases ih (min q x) with h | h
    · rcases min_choice q x with h' | h'
      · exact Or.inl (by rw [h, h'])
      · exact Or.inr (by rw [h, h']; exact List.mem_cons_self x xs)
    · exact Or.inr (List.mem_cons_of_mem x h)

theorem foldl_min_le (q : ℚ) (qs : List ℚ) :
    qs.foldl min q ≤ q ∧ ∀ x ∈ qs, qs.foldl min q ≤ x := by
  induction qs generalizing q with
  | nil => exact ⟨le_refl q, by simp⟩
  | cons x xs ih =>
    obtain ⟨h₁, h₂⟩ := ih (min q x)
    simp only [List.foldl_cons]
    refine ⟨le_trans h₁ (min_le_left q x), ?_⟩
    intro y hy
    rcases List.mem_cons.mp hy with rfl | hy
    · exact le_trans h₁ (min_le_right q y)
    · exact h₂ y hy

theorem foldl_max_cases (q : ℚ) (qs : List ℚ) :
    qs.foldl max q = q ∨ qs.foldl max q ∈ qs := by
  induction qs generalizing q with
  | nil => exact Or.inl rfl
  | cons x xs ih =>
    simp only [List.foldl_cons]
    rcases ih (max q x) with h | h
    · rcases max_choice q x with h' | h'
      · exact Or.inl (by rw [h, h'])
      · exact Or.inr (by rw [h, h']; exact List.mem_cons_self x xs)
    · exact Or.inr (List.mem_cons_of_mem x h)

theorem foldl_max_ge (q : ℚ) (qs : List ℚ) :
    q ≤ qs.foldl max q ∧ ∀ x ∈ qs, x ≤ qs.foldl max q := by
  induction qs generalizing q with
  | nil => exact ⟨le_refl q, by simp⟩
  | cons x xs ih =>
    obtain ⟨h₁, h₂⟩ := ih (max q x)
    simp only [List.foldl_cons]
    refine ⟨le_trans (le_max_left q x) h₁, ?_⟩
    intro y hy
    rcases List.mem_cons.mp hy with rfl | hy
    · exact le_trans (le_max_right q y) h₁
    · exact h₂ y hy

theorem foldl_add_eq_sum (q : ℚ) (qs : List ℚ) :
    qs.foldl (· + ·) q = q + qs.sum := by
  induction qs generalizing q with
  | nil => simp
  | cons x xs ih => simp only [List.foldl_cons, ih, List.sum_cons]; ring

theorem calculateStats_cons (values : List JSNum) (q : ℚ) (qs : List ℚ)
    (hv : validSamples values = q :: qs) :
    calculateStats values =
      ⟨qs.foldl min q, (q + qs.sum) / ((qs.length + 1 : Nat) : ℚ), qs.foldl max q⟩ := by
  have havg : ratDiv ((q :: qs).foldl ratAdd 0) (mkRat (qs.length + 1 : Nat) 1) =
      (q + qs.sum) / ((qs.length + 1 : Nat) : ℚ) := by
    rw [ratDiv_eq, foldl_ratAdd_eq, Rat.mkRat_one, List.foldl_cons, foldl_add_eq_sum]
    norm_num
  simp only [calculateStats, hv]
  rw [havg]

/-- C1: `calculateStats` returns `{0,0,0}` when no element is
simultaneously positive, non-NaN and finite; otherwise it returns
exactly the minimum, arithmetic mean and maximum of the elements
passing that filter; in particular `calculateStats([]) = {0,0,0}` and
`calculateStats([-1, 0, NaN, 5]) = {5,5,5}`. -/
theorem claim_C1_calculateStats (values : List JSNum) :
    (validSamples values = [] → calculateStats values = ⟨0, 0, 0⟩) ∧
    (validSamples values ≠ [] →
      ((calculateStats values).min ∈ validSamples values ∧
        ∀ x ∈ validSamples values, (calculateStats values).min ≤ x) ∧
      (calculateStats values).avg =
        (validSamples values).sum / ((validSamples values).length : ℚ) ∧
      ((calculateStats values).max ∈ validSamples values ∧
        ∀ x ∈ validSamples values, x ≤ (calculateStats values).max)) ∧
    calculateStats [] = ⟨0, 0, 0⟩ ∧
    calculateStats [.fin (-1), .fin 0, .nan, .fin 5] = ⟨5, 5, 5⟩ := by
  refine ⟨?_, ?_, by decide, ?_⟩
  · intro h
    unfold calculateStats
    rw [h]
  · intro h
    rcases hv : validSamples values with _ | ⟨q, qs⟩
    · exact absurd hv h
    rw [calculateStats_cons values q qs hv]
    refine ⟨⟨?_, ?_⟩, ?_, ?_, ?_⟩
    · rcases foldl_min_cases q qs with h' | h'
      · rw [h']; exact List.mem_cons_self q qs
      · exact List.mem_cons_of_mem q h'
    · intro x hx
      rcases List.mem_cons.mp hx with h' | h'
      · rw [h']; exact (foldl_min_le q qs).1
      · exact (foldl_min_le q qs).2 x h'
    · simp [List.sum_cons, List.length_cons]
    · rcases foldl_max_cases q qs with h' | h'
      · rw [h']; exact List.mem_cons_self q qs
      · exact List.mem_cons_of_mem q h'
    · intro x hx
      rcases List.mem_cons.mp hx with h' | h'
      · rw [h']; exact (foldl_max_ge q qs).1
      · exact (foldl_max_ge q qs).2 x h'
  · have hv : validSamples [JSNum.fin (-1), .fin 0, .nan, .fin 5] = [5] := by decide
    rw [calculateStats_cons _ 5 [] hv]
    norm_num

/-- Witness for C1 at the concrete list `[5]`. -/
theorem claim_C1_witness :
    (calculateStats [JSNum.fin 5]).avg =
      (validSamples [JSNum.fin 5]).sum / ((validSamples [JSNum.fin 5]).length : ℚ) :=
  (((claim_C1_calculateStats [JSNum.fin 5]).2.1 (by decide)).2.1)

theorem mkRat_div_cast (n : ℤ) (d : ℕ) : (mkRat n d : ℚ) = (n : ℚ) / (d : ℚ) :=
  Rat.mkRat_eq_div n d

/-- C2: the numeric-token parser never throws and always yields a
finite value on string input; with both separators present the later
one is the decimal separator (`"1.234,56"` and `"1,234.56"` both parse
to 1234.56); a lone comma is a decimal separator; remaining non-numeric
characters are stripped; an unparseable token yields 0. -/
theorem claim_C2_parseNumericValue :
    (∀ s : String, ∃ q : ℚ, parseNumericValue (.str s) = .fin q) ∧
    parseNumericValue (.str "1.234,56") = .fin (123456 / 100) ∧
    parseNumericValue (.str "1,234.56") = .fin (123456 / 100) ∧
    parseNumericValue (.str "3,14") = .fin (314 / 100) ∧
    parseNumericValue (.str "R$ 12,50") = .fin (1250 / 100) ∧
    parseNumericValue (.str "abc") = .fin 0 := by
  have h1 : ((123456 : ℚ) / 100) = mkRat 123456 100 := by
    rw [mkRat_div_cast]; norm_num
  have h2 : ((314 : ℚ) / 100) = mkRat 314 100 := by
    rw [mkRat_div_cast]; norm_num
  have h3 : ((1250 : ℚ) / 100) = mkRat 1250 100 := by
    rw [mkRat_div_cast]; norm_num
  refine ⟨?_, by rw [h1]; decide, by rw [h1]; decide, by rw [h2]; decide,
    by rw [h3]; decide, by decide⟩
  intro s
  show ∃ q, parseNumericString s = .fin q
  unfold parseNumericString
  split
  · exact ⟨0, rfl⟩
  · split
    · next q _ => exact ⟨q, rfl⟩
    · exact ⟨0, rfl⟩

/-- C10: a numeric argument is returned unchanged (including negative,
NaN and infinite values); null, undefined and the empty string return 0,
so the 0-on-failure behaviour applies only to string tokens. -/
theorem claim_C10_passthrough :
    (∀ n : JSNum, parseNumericValue (.num n) = n) ∧
    parseNumericValue .null = .fin 0 ∧
    parseNumericValue .undef = .fin 0 ∧
    parseNumericValue (.str "") = .fin 0 ∧
    parseNumericValue (.num .nan) = .nan ∧
    parseNumericValue (.num .posInf) = .posInf ∧
    parseNumericValue (.num (.fin (-7 / 2))) = .fin (-7 / 2) := by
  exact ⟨fun n => rfl, rfl, rfl, by decide, rfl, rfl, rfl⟩

-- #### Character classes and string scanning utilities (JavaScript regex semantics)

/-- The `\w` class of JavaScript regular expressions (`[A-Za-z0-9_]`). -/
def jsIsWordChar (c : Char) : Bool := c.isAlpha || c.isDigit || c = '_'

/-- The `[\d,\.]` class used by the numeric-token patterns. -/
def isNumTokChar (c : Char) : Bool := c.isDigit || c = ',' || c = '.'

/-- The `[:\s]` class used by the labelled-field patterns. -/
def isColonSpace (c : Char) : Bool := c = ':' || jsIsWhitespace c

/-- `String.prototype.toLowerCase` per character, covering ASCII plus the
accented letters appearing in this program's patterns and column aliases. -/
def jsToLowerChar (c : Char) : Char :=
  match c with
  | 'Á' => 'á' | 'É' => 'é' | 'Í' => 'í' | 'Ó' => 'ó' | 'Ú' => 'ú'
  | 'Â' => 'â' | 'Ê' => 'ê' | 'Ô' => 'ô' | 'Ã' => 'ã' | 'Õ' => 'õ'
  | 'Ç' => 'ç' | 'À' => 'à'
  | _ => c.toLower

/-- Case-insensitive character comparison (the `/i` regex flag). -/
def ciEq (a b : Char) : Bool := jsToLowerChar a = jsToLowerChar b

/-- Match a literal case-insensitively at the head of the input,
returning the remainder. -/
def ciPrefix : List Char → List Char → Option (List Char)
  | [], s => some s
  | _, [] => none
  | p :: ps, c :: cs => if ciEq p c then ciPrefix ps cs else none

/-- Match a per-position character-alternative literal (e.g. `M[íi]nimo`)
case-insensitively at the head of the input, returning the remainder. -/
def altPrefix : List (List Char) → List Char → Option (List Char)
  | [], s => some s
  | _, [] => none
  | alts :: ps, c :: cs => if alts.any (fun a => ciEq a c) then altPrefix ps cs else none

theorem dropWhile_length_le (p : Char → Bool) (l : List Char) :
    (l.dropWhile p).length ≤ l.length :=
  (List.dropWhile_suffix p).length_le

/-- Case-sensitive `String.prototype.includes` (substring test). -/
def containsSub (pat : List Char) : List Char → Bool
  | [] => pat.isEmpty
  | c :: rest => pat.isPrefixOf (c :: rest) || containsSub pat rest

/-- `text.includes(pat)`. -/
def containsStr (text pat : String) : Bool := containsSub pat.data text.data

/-- Find the leftmost position where the at-position matcher `f`
succeeds (JavaScript `String.prototype.match` without `/g`). -/
def scanLeftmost (f : List Char → Option α) : List Char → Option α
  | [] => f []
  | c :: rest =>
    match f (c :: rest) with
    | some a => some a
    | none => scanLeftmost f rest

/-- `\s+`: require at least one whitespace character, consume the
maximal run, return the remainder. -/
def spacePlus (s : List Char) : Option (List Char) :=
  let run := s.takeWhile jsIsWhitespace
  if run.isEmpty then none else some (s.drop run.length)

/-- `lit[cls]{min,}(\d+)` at a position: case-insensitive literal, then
at least `minRep` characters of class `cls` (greedily), then a captured
digit run.  Classes are disjoint from `\d`, so greedy matching agrees
with backtracking semantics. -/
def litClassDigitsAt (lit : List Char) (cls : Char → Bool) (minRep : Nat)
    (s : List Char) : Option (List Char) :=
  match ciPrefix lit s with
  | none => none
  | some r1 =>
    let run := r1.takeWhile cls
    if run.length < minRep then none
    else
      let ds := (r1.drop run.length).takeWhile Char.isDigit
      if ds.isEmpty then none else some ds

/-- `lit[_-]?(\d+)` at a position (the filename patterns
`/lote[_-]?(\d+)/i`, `/lot[_-]?(\d+)/i`). -/
def litOptSepDigitsAt (lit : List Char) (s : List Char) : Option (List Char) :=
  match ciPrefix lit s with
  | none => none
  | some r1 =>
  match r1 with
  | c :: t =>
    if c = '_' || c = '-' then
      let ds := t.takeWhile Char.isDigit
      if ds.isEmpty then none else some ds
    else
      let ds := r1.takeWhile Char.isDigit
      if ds.isEmpty then none else some ds
  | [] => none

/-- The lookahead `(?=\.[^.]+$)` of the filename pattern
`/(\d{2,4})(?=\.[^.]+$)/`. -/
def lookaheadExt (rest : List Char) : Bool :=
  match rest with
  | '.' :: t => !t.isEmpty && t.all (fun c => c ≠ '.')
  | _ => false

/-- `/(\d{2,4})(?=\.[^.]+$)/` at a position: 2–4 digits (preferring 4,
backtracking to 2) followed by the final-extension lookahead. -/
def digitsBeforeExtAt (s : List Char) : Option (List Char) :=
  let run := (s.takeWhile Char.isDigit).length
  if run ≥ 4 && lookaheadExt (s.drop 4) then some (s.take 4)
  else if run ≥ 3 && lookaheadExt (s.drop 3) then some (s.take 3)
  else if run ≥ 2 && lookaheadExt (s.drop 2) then some (s.take 2)
  else none

/-- `extractBatchNumber` (pdf-processor.ts:234-271): ordered label
patterns over the text, then filename fallbacks, then `"N/A"`. -/
def extractBatchNumber (text filename : String) : String :=
  let textPatterns : List (Option (List Char)) := [
    scanLeftmost (litClassDigitsAt "pilha/lote".data isColonSpace 0) text.data,
    scanLeftmost (litClassDigitsAt "pilha".data isColonSpace 1) text.data,
    scanLeftmost (litClassDigitsAt "lote".data isColonSpace 1) text.data,
    scanLeftmost (litClassDigitsAt "romaneio".data jsIsWhitespace 1) text.data,
    scanLeftmost (litClassDigitsAt "romaneio".data isColonSpace 1) text.data,
    scanLeftmost (litClassDigitsAt "batch".data isColonSpace 1) text.data,
    scanLeftmost (litClassDigitsAt "bloco".data isColonSpace 1) text.data,
    scanLeftmost (litClassDigitsAt "lot".data isColonSpace 1) text.data,
    scanLeftmost (litClassDigitsAt "block".data isColonSpace 1) text.data]
  match textPatterns.findSome? id with
  | some d => String.mk d
  | none =>
    let filenamePatterns : List (Option (List Char)) := [
      scanLeftmost (litClassDigitsAt "blc".data jsIsWhitespace 0) filename.data,
      scanLeftmost (litOptSepDigitsAt "lote".data) filename.data,
      scanLeftmost (litOptSepDigitsAt "lot".data) filename.data,
      scanLeftmost digitsBeforeExtAt filename.data]
    match filenamePatterns.findSome? id with
    | some d => String.mk d
    | none => "N/A"

example : extractBatchNumber "foo Pilha/Lote: 7 bar" "x.pdf" = "7" := by decide
example : extractBatchNumber "" "lote_12.pdf" = "12" := by decide
example : extractBatchNumber "" "report2024.pdf" = "2024" := by decide
example : extractBatchNumber "" "f.pdf" = "N/A" := by decide

-- #### Global scanners (`/g` regexes and `String.prototype.split`)

/-- Worker for `split(/\s+/)`: accumulate the current token (reversed),
emit it at each maximal whitespace run, keep boundary empty tokens as
JavaScript does.  The fuel argument (instantiated with the input
length, which each step decreases) makes the recursion structural and
kernel-reducible. -/
def splitWsAux (fuel : Nat) (l : List Char) (cur : List Char) : List (List Char) :=
  match fuel, l with
  | _, [] => [cur.reverse]
  | 0, _ => [cur.reverse]
  | fuel + 1, c :: rest =>
    if jsIsWhitespace c then
      cur.reverse :: splitWsAux fuel (rest.dropWhile jsIsWhitespace) []
    else splitWsAux fuel rest (c :: cur)

/-- `String.prototype.split(/\s+/)`. -/
def splitWs (l : List Char) : List (List Char) := splitWsAux l.length l []

/-- Worker for `split(/\n|\s{3,}/)`: a separator is a single newline
(tried first, per alternation order) or a maximal whitespace run of
length at least 3. -/
def splitLinesAux (fuel : Nat) (l : List Char) (cur : List Char) : List (List Char) :=
  match fuel, l with
  | _, [] => [cur.reverse]
  | 0, _ => [cur.reverse]
  | fuel + 1, c :: rest =>
    if c = '\n' then cur.reverse :: splitLinesAux fuel rest []
    else if jsIsWhitespace c && 3 ≤ ((c :: rest).takeWhile jsIsWhitespace).length then
      cur.reverse :: splitLinesAux fuel (rest.dropWhile jsIsWhitespace) []
    else splitLinesAux fuel rest (c :: cur)

/-- `String.prototype.split(/\n|\s{3,}/)`. -/
def splitLines (l : List Char) : List (List Char) := splitLinesAux l.length l []

/-- All matches of the global pattern `/[\d,\.]+/g` (maximal runs of
digits, commas and periods). -/
def numTokensAux (fuel : Nat) (l : List Char) : List (List Char) :=
  match fuel, l with
  | _, [] => []
  | 0, _ => []
  | fuel + 1, c :: rest =>
    if isNumTokChar c then
      (c :: rest.takeWhile isNumTokChar) :: numTokensAux fuel (rest.dropWhile isNumTokChar)
    else numTokensAux fuel rest

/-- All matches of `/[\d,\.]+/g`. -/
def numTokens (l : List Char) : List (List Char) := numTokensAux l.length l

/-- All matches of the bale-code pattern `/00\d{14,}/g` with JavaScript
global-scan semantics (leftmost, greedy, non-overlapping): returns the
list of `(start, length)` pairs. -/
def baleScanAux (fuel : Nat) (l : List Char) (pos : Nat) : List (Nat × Nat) :=
  match fuel, l with
  | _, [] => []
  | 0, _ => []
  | fuel + 1, '0' :: '0' :: rest =>
    let ds := rest.takeWhile Char.isDigit
    if 14 ≤ ds.length then
      (pos, 2 + ds.length) :: baleScanAux fuel (rest.drop ds.length) (pos + 2 + ds.length)
    else baleScanAux fuel ('0' :: rest) (pos + 1)
  | fuel + 1, _ :: rest => baleScanAux fuel rest (pos + 1)

/-- `(fullText.match(/00\d{14,}/g) || []).length`. -/
def countBaleCodes (text : String) : Nat := (baleScanAux text.data.length text.data 0).length

/-- The positions just after each bale code
(`match.index + match[0].length`, pdf-processor.ts:889-891). -/
def balePositions (text : String) : List Nat :=
  (baleScanAux text.data.length text.data 0).map (fun r => r.1 + r.2)

/-- `String.prototype.substring` (negative clamped to 0, overlong
clamped to the length, arguments swapped when start exceeds end). -/
def jsSubstring (l : List Char) (a b : Int) : List Char :=
  let n := l.length
  let a' := min (max a 0).toNat n
  let b' := min (max b 0).toNat n
  (l.drop (min a' b')).take (max a' b' - min a' b')

-- #### Numeric token predicates and per-bale window parsing

/-- Full-string test `/^\d+\.?\d*$/`. -/
def isSimpleNumTok (l : List Char) : Bool :=
  let d1 := l.takeWhile Char.isDigit
  match l.drop d1.length with
  | [] => !d1.isEmpty
  | '.' :: t => !d1.isEmpty && t.all Char.isDigit
  | _ => false

/-- Full-string test `/^-?\d+\.?\d*$/`. -/
def isSignedNumTok (l : List Char) : Bool :=
  match l with
  | '-' :: t => isSimpleNumTok t
  | _ => isSimpleNumTok l

/-- Full-string test `/^\d+-\d+$/` (the "tipo" tokens like `21-3`
skipped inside G4 bale windows). -/
def isTipoTok (l : List Char) : Bool :=
  let d1 := l.takeWhile Char.isDigit
  match l.drop d1.length with
  | '-' :: t => !d1.isEmpty && !t.isEmpty && t.all Char.isDigit
  | _ => false

/-- The Brazilian-format normalization applied to G4 window tokens
(pdf-processor.ts:912-919): with both separators and the comma last,
strip periods and make the first comma the decimal point; otherwise
just make the first comma the decimal point. -/
def brNormalizeTok (t : List Char) : List Char :=
  if t.contains '.' && t.contains ',' && lastIndexOfChar t ',' > lastIndexOfChar t '.' then
    replaceFirst (removeAllChar t '.') ',' '.'
  else replaceFirst t ',' '.'

/-- Numbers extracted from a G4 bale window (pdf-processor.ts:909-922):
split on whitespace, drop tipo tokens, normalize separators, keep fully
numeric tokens, parse (`filterMap` fuses the source's
`.map(parseFloat).filter(n => !isNaN(n))`). -/
def g4SegmentNumbers (seg : List Char) : List ℚ :=
  ((((splitWs seg).filter (fun t => !isTipoTok t)).map brNormalizeTok).filter
    isSignedNumTok).filterMap (fun t => jsParseFloat (String.mk t))

/-- Numbers extracted from a Siagri bale window
(pdf-processor.ts:1138-1143): split on whitespace, first comma becomes
the decimal point, keep fully numeric tokens, parse. -/
def siagriSegmentNumbers (seg : List Char) : List ℚ :=
  (((splitWs seg).map (fun t => replaceFirst t ',' '.')).filter
    isSignedNumTok).filterMap (fun t => jsParseFloat (String.mk t))

/-- `Array.prototype.find` with a value-and-index predicate. -/
def findWithIdx (l : List ℚ) (p : ℚ → Nat → Bool) : Option ℚ :=
  (l.enum.find? (fun pr => p pr.2 pr.1)).map (fun pr => pr.2)

/-- Floor of a rational (kernel-reducible; `Int.fdiv` rounds toward
negative infinity). -/
def ratFloor (q : ℚ) : ℤ := Int.fdiv q.num q.den

/-- JavaScript `Math.round`: ties toward positive infinity. -/
def jsRound (q : ℚ) : ℚ := ((ratFloor (ratAdd q (mkRat 1 2))) : ℤ)

/-- Kernel-reducible absolute value on `ℚ`. -/
def ratAbs (a : ℚ) : ℚ := if 0 ≤ a.num then a else ratNeg a

/-- Kernel-reducible subtraction on `ℚ`. -/
def ratSub (a b : ℚ) : ℚ := ratAdd a (ratNeg b)

/-- The backward SCI scan over a G4 bale window
(pdf-processor.ts:948-956): from the last value down to the eighth from
the end, the first integer-valued entry in `[84, 92]`, rounded. -/
def g4SciFind (numbers : List ℚ) : Option ℚ :=
  (((List.range numbers.length).drop (numbers.length - 8)).reverse).findSome? fun idx =>
    let val := numbers.getD idx 0
    if 84 ≤ val && val ≤ 92 && ratAbs (ratSub val (jsRound val)) < mkRat 1 100 then
      some (jsRound val)
    else none

/-- `Number.prototype.toFixed(2)` for a nonnegative rational. -/
def ratToFixed2Pos (q : ℚ) : String :=
  let n := ratFloor (ratAdd (ratMul q (mkRat 100 1)) (mkRat 1 2))
  let ip := n / 100
  let fr := n % 100
  toString ip ++ "." ++ (if fr < 10 then "0" ++ toString fr else toString fr)

/-- `Number.prototype.toFixed(2)` (negative values format the negated
magnitude behind a minus sign, per the ECMAScript algorithm). -/
def ratToFixed2 (q : ℚ) : String :=
  if q < 0 then "-" ++ ratToFixed2Pos (ratNeg q) else ratToFixed2Pos q

/-- Sum of a rational list (`reduce((a, b) => a + b, 0)`). -/
def sumQ (l : List ℚ) : ℚ := l.foldl ratAdd 0

example : splitWs " a  b ".data = ["".data, "a".data, "b".data, "".data] := by decide
example : numTokens "ab 1,2 x ,3".data = ["1,2".data, ",3".data] := by decide
example : countBaleCodes "x 0012345678901234 y" = 1 := by decide
example : countBaleCodes "x 001234567890123 y" = 0 := by decide
example : ratToFixed2 (mkRat 12345 100) = "123.45" := by decide
example : g4SciFind [mkRat 1 1, mkRat 86 1] = some 86 := by decide

-- #### PDF layout matchers

/-- Convert a list of alternative-strings to per-position character
alternatives. -/
def altsOf (l : List String) : List (List Char) := l.map String.data

/-- The literal `M[íi]nimo` (case-insensitive). -/
def minimoAlts : List (List Char) := altsOf ["m", "íi", "n", "i", "m", "o"]

/-- The literal `M[ée]dia` (case-insensitive). -/
def mediaAlts : List (List Char) := altsOf ["m", "ée", "d", "i", "a"]

/-- The literal `M[áa]ximo` (case-insensitive). -/
def maximoAlts : List (List Char) := altsOf ["m", "áa", "x", "i", "m", "o"]

/-- `([\d,\.]+)`: capture a maximal nonempty numeric-token run. -/
def capNumTok (s : List Char) : Option (List Char × List Char) :=
  let run := s.takeWhile isNumTokChar
  if run.isEmpty then none else some (run, s.drop run.length)

/-- Capture `n` numeric tokens (`([\d,\.]+)`) separated by `\s+`,
starting at the current position. -/
def capNumToksSep : Nat → List Char → Option (List (List Char))
  | 0, _ => some []
  | 1, s =>
    match capNumTok s with
    | none => none
    | some cr => some [cr.1]
  | n + 2, s =>
    match capNumTok s with
    | none => none
    | some cr =>
      match spacePlus cr.2 with
      | none => none
      | some r =>
        match capNumToksSep (n + 1) r with
        | none => none
        | some caps => some (cr.1 :: caps)

/-- A sequence of case-insensitive literal words separated by `\s+`,
returning the remainder. -/
def ciWordsSep : List (List Char) → List Char → Option (List Char)
  | [], s => some s
  | [w], s => ciPrefix w s
  | w :: ws, s =>
    match ciPrefix w s with
    | none => none
    | some r =>
      match spacePlus r with
      | none => none
      | some r2 => ciWordsSep ws r2

/-- `/[^\w]LIT[^\d]*(N)\s+(N)\s+(N)\s+(N)\s+(N)\s+(N)/i` at a position
(the Mínimo/Média/Máximo summary rows, pdf-processor.ts:756-758): a
non-word character, the literal, a greedy skip to the first digit, then
six whitespace-separated numeric captures. -/
def sixNumsAt (lit : List (List Char)) (s : List Char) : Option (List String) :=
  match s with
  | [] => none
  | c :: rest =>
    if jsIsWordChar c then none
    else
      match altPrefix lit rest with
      | none => none
      | some r1 =>
        match capNumToksSep 6 (r1.dropWhile (fun d => !d.isDigit)) with
        | none => none
        | some caps => some (caps.map String.mk)

/-- `/[^\w]M[ée]dia[^\n\r]+/i` at a position, returning the whole match
(pdf-processor.ts:763). -/
def mediaFullLineAt (s : List Char) : Option (List Char) :=
  match s with
  | [] => none
  | c :: rest =>
    if jsIsWordChar c then none
    else
      match altPrefix mediaAlts rest with
      | none => none
      | some r1 =>
        let lineRun := r1.takeWhile (fun d => d ≠ '\n' && d ≠ '\r')
        if lineRun.isEmpty then none
        else some (c :: rest.take (rest.length - r1.length) ++ lineRun)

/-- `/Romaneio\s+com\s+HVI/i` at a position. -/
def romaneioComHVIAt (s : List Char) : Option Unit :=
  (ciWordsSep (["romaneio", "com", "hvi"].map String.data) s).map (fun _ => ())

/-- `/Peso\s+do\s+Lote\s*[;:]?\s*([\d.,]+)/i` at a position. -/
def pesoLoteAt (s : List Char) : Option (List Char) :=
  match ciWordsSep (["peso", "do", "lote"].map String.data) s with
  | none => none
  | some r5 =>
    let r6 := r5.dropWhile jsIsWhitespace
    let r7 := match r6 with
      | c :: t => if c = ';' || c = ':' then t else r6
      | [] => r6
    let r8 := r7.dropWhile jsIsWhitespace
    (capNumTok r8).map (fun cr => cr.1)

/-- `/Fardo\s+L[ií]quido/i` at a position. -/
def fardoLiquidoAt (s : List Char) : Option Unit :=
  match ciPrefix "fardo".data s with
  | none => none
  | some r1 =>
    match spacePlus r1 with
    | none => none
    | some r2 => (altPrefix (altsOf ["l", "ií", "q", "u", "i", "d", "o"]) r2).map (fun _ => ())

/-- `/Qtd\s*Fardos\s+(\d{2,})\s+(N)\s+(N)\s+(N)\s+(N)\s+(N)\s+(N)\s+(N)/i`
at a position (the G4 summary line, pdf-processor.ts:849): the bale
count capture followed by seven numeric captures. -/
def qtdFardosAvgAt (s : List Char) : Option (List Char × List (List Char)) :=
  match ciPrefix "qtd".data s with
  | none => none
  | some r1 =>
    match ciPrefix "fardos".data (r1.dropWhile jsIsWhitespace) with
    | none => none
    | some r3 =>
      match spacePlus r3 with
      | none => none
      | some r4 =>
        let d := r4.takeWhile Char.isDigit
        if d.length < 2 then none
        else
          match spacePlus (r4.drop d.length) with
          | none => none
          | some r6 =>
            match capNumToksSep 7 r6 with
            | none => none
            | some caps => some (d, caps)

/-- `/Qtd\s*Fardos\s+(\d+)/i` at a position (Siagri,
pdf-processor.ts:1104). -/
def siagriQtdAt (s : List Char) : Option (List Char) :=
  match ciPrefix "qtd".data s with
  | none => none
  | some r1 =>
    match ciPrefix "fardos".data (r1.dropWhile jsIsWhitespace) with
    | none => none
    | some r3 =>
      match spacePlus r3 with
      | none => none
      | some r4 =>
        let d := r4.takeWhile Char.isDigit
        if d.isEmpty then none else some d

/-- `/(\d+)\s*Fardos\s+([\d.,]+)/i` at a position
(pdf-processor.ts:1211). -/
def balesP1At (s : List Char) : Option (List Char × List Char) :=
  let d := s.takeWhile Char.isDigit
  if d.isEmpty then none
  else
    match ciPrefix "fardos".data ((s.drop d.length).dropWhile jsIsWhitespace) with
    | none => none
    | some r2 =>
      match spacePlus r2 with
      | none => none
      | some r3 => (capNumTok r3).map (fun cr => (d, cr.1))

/-- `/Qtd\s*Fardos[:\s]+(\d+)/i` at a position (pdf-processor.ts:1213). -/
def qtdFardosColonAt (s : List Char) : Option (List Char) :=
  match ciPrefix "qtd".data s with
  | none => none
  | some r1 =>
    match ciPrefix "fardos".data (r1.dropWhile jsIsWhitespace) with
    | none => none
    | some r3 =>
      let run := r3.takeWhile isColonSpace
      if run.isEmpty then none
      else
        let ds := (r3.drop run.length).takeWhile Char.isDigit
        if ds.isEmpty then none else some ds

/-- `/Peso[:\s]+([\d.,]+)\s*Kg/i` at a position (pdf-processor.ts:1214). -/
def pesoKgAt (s : List Char) : Option (List Char) :=
  match ciPrefix "peso".data s with
  | none => none
  | some r1 =>
    let run := r1.takeWhile isColonSpace
    if run.isEmpty then none
    else
      match capNumTok (r1.drop run.length) with
      | none => none
      | some wr =>
        (ciPrefix "kg".data (wr.2.dropWhile jsIsWhitespace)).map (fun _ => wr.1)

/-- The `[\d,\.\s]` capture class of the summary-label patterns. -/
def isCapChar (c : Char) : Bool := isNumTokChar c || jsIsWhitespace c

/-- `/LABEL[:\s]+([\d,\.\s]+)/i` at a position (pdf-processor.ts:1250):
the literal label, at least one `[:\s]` character (greedy), then a
nonempty `[\d,\.\s]` capture.  When the character after the separator
run cannot start the capture, the engine backtracks the separator so
the capture becomes a single whitespace character (possible whenever
the separator run has a whitespace character beyond its first
character); such a capture contains no digits, so it yields an empty
number list downstream. -/
def labelCapAt (lit : List Char) (s : List Char) : Option (List Char) :=
  match ciPrefix lit s with
  | none => none
  | some r1 =>
    let sep := r1.takeWhile isColonSpace
    if sep.isEmpty then none
    else
      let r2 := r1.drop sep.length
      match r2 with
      | c :: _ =>
        if isNumTokChar c then some (r2.takeWhile isCapChar)
        else if (sep.drop 1).any jsIsWhitespace then some [' ']
        else none
      | [] => if (sep.drop 1).any jsIsWhitespace then some [' '] else none

/-- The minimum-row labels (pdf-processor.ts:1242). -/
def minLabels : List String := ["mínimo", "minimo", "minimum", "min", "3- mínimo", "3-mínimo"]

/-- The average-row labels (pdf-processor.ts:1243). -/
def avgLabels : List String := ["média", "media", "average", "avg", "1- média", "1-média"]

/-- The maximum-row labels (pdf-processor.ts:1244). -/
def maxLabels : List String := ["máximo", "maximo", "maximum", "max", "2- máximo", "2-máximo"]

/-- First label of the list whose pattern matches, mapped to its parsed
number list (pdf-processor.ts:1247-1262). -/
def summaryNumbersFor (labels : List String) (text : String) : Option (List ℚ) :=
  (labels.findSome? (fun lab => scanLeftmost (labelCapAt lab.data) text.data)).map fun cap =>
    (((splitWs cap).map (fun t => replaceFirst t ',' '.')).filter
      isSimpleNumTok).filterMap (fun t => jsParseFloat (String.mk t))

/-- Range-based field identification over a summary row's numbers
(pdf-processor.ts:1267-1283): micronaire in `[3,6]`, a length candidate
in `[0.9,1.5]` or `[25,40]`, strength in `[25,40]` excluding the length
candidate, SCI in `[80,200]`. -/
def statAssign (numbersOpt : Option (List ℚ)) :
    Option ℚ × Option ℚ × Option ℚ × Option ℚ :=
  match numbersOpt with
  | none => (none, none, none, none)
  | some ns =>
    let micValue := ns.find? (fun n => decide (3 ≤ n) && decide (n ≤ 6))
    let uhmValue := ns.find? (fun n =>
      (decide (mkRat 9 10 ≤ n) && decide (n ≤ mkRat 3 2)) ||
      (decide (25 ≤ n) && decide (n ≤ 40)))
    let strValue := ns.find? (fun n => decide (25 ≤ n) && decide (n ≤ 40) &&
      (match uhmValue with | some u => decide (n ≠ u) | none => true))
    let sciValue := ns.find? (fun n => decide (80 ≤ n) && decide (n ≤ 200))
    (micValue, uhmValue, strValue, sciValue)

/-- The four per-field stat triples built by `extractSummaryStats`. -/
structure FourStats where
  mic : Stats
  uhm : Stats
  str : Stats
  sci : Stats
deriving DecidableEq, Repr

/-- A found length candidate is normalized to inches before being
stored (pdf-processor.ts:1274); unset fields remain 0. -/
def normFoundUhm (o : Option ℚ) : ℚ :=
  match o with
  | some u => (normalizeUhmToInches (.fin u)).toQ
  | none => 0

/-- `extractSummaryStats` (pdf-processor.ts:1232-1290). -/
def extractSummaryStats (text : String) : FourStats :=
  let (micMin, uhmMin, strMin, sciMin) := statAssign (summaryNumbersFor minLabels text)
  let (micAvg, uhmAvg, strAvg, sciAvg) := statAssign (summaryNumbersFor avgLabels text)
  let (micMax, uhmMax, strMax, sciMax) := statAssign (summaryNumbersFor maxLabels text)
  { mic := ⟨micMin.getD 0, micAvg.getD 0, micMax.getD 0⟩,
    uhm := ⟨normFoundUhm uhmMin, normFoundUhm uhmAvg, normFoundUhm uhmMax⟩,
    str := ⟨strMin.getD 0, strAvg.getD 0, strMax.getD 0⟩,
    sci := ⟨sciMin.getD 0, sciAvg.getD 0, sciMax.getD 0⟩ }

-- #### Per-bale windows and the PDF extractor

/-- The `BatchData` record (pdf-processor.ts:3-18) — the LotRecord of
the specification. -/
structure BatchData where
  batchNumber : String
  batchWeight : String
  numberOfBales : String
  micMin : JSNum
  micAvg : JSNum
  micMax : JSNum
  uhmMin : JSNum
  uhmAvg : JSNum
  uhmMax : JSNum
  strMin : JSNum
  strAvg : JSNum
  strMax : JSNum
  sciAvg : Option JSNum
  sourceFile : String
deriving DecidableEq, Repr

/-- The accumulated per-bale value lists of the per-bale extractors. -/
structure BaleLists where
  weights : List ℚ
  mic : List ℚ
  uhm : List ℚ
  strength : List ℚ
  sci : List ℚ
deriving DecidableEq, Repr

/-- The per-bale text windows (pdf-processor.ts:903-906): from the end
of one bale code to 20 characters before the next, or a fixed-length
window after the last code. -/
def baleSegments (text : String) (positions : List Nat) (lastWindow : Nat) : List (List Char) :=
  (List.range positions.length).map fun i =>
    let s := positions.getD i 0
    let e : Int :=
      if i + 1 < positions.length then (positions.getD (i + 1) 0 : Int) - 20
      else (s : Int) + lastWindow
    jsSubstring text.data (s : Int) e

/-- The G4 per-window field collection (pdf-processor.ts:924-957):
net weight in `[150,300]` at position 0, fiber length in `[1,1.35]` at
indices 2–5, strength in `[28,35]` at indices 5–8, micronaire in
`[3.5,5.5]` at indices 7–10, SCI by the backward integer scan;
windows with fewer than `minLen` numbers are skipped. -/
def g4CollectValues (segs : List (List Char)) (minLen : Nat) : BaleLists :=
  segs.foldl (fun acc seg =>
    let numbers := g4SegmentNumbers seg
    if numbers.length < minLen then acc
    else
      let w := numbers.getD 0 0
      let weights :=
        if decide (150 ≤ w) && decide (w ≤ 300) then acc.weights ++ [w] else acc.weights
      let uhmC := findWithIdx numbers (fun n idx =>
        decide (2 ≤ idx) && decide (idx ≤ 5) && decide (1 ≤ n) && decide (n ≤ mkRat 135 100))
      let strC := findWithIdx numbers (fun n idx =>
        decide (5 ≤ idx) && decide (idx ≤ 8) && decide (28 ≤ n) && decide (n ≤ 35))
      let micC := findWithIdx numbers (fun n idx =>
        decide (7 ≤ idx) && decide (idx ≤ 10) &&
        decide (mkRat 35 10 ≤ n) && decide (n ≤ mkRat 55 10))
      let sciC := g4SciFind numbers
      { weights := weights,
        mic := acc.mic ++ micC.toList,
        uhm := acc.uhm ++ uhmC.toList,
        strength := acc.strength ++ strC.toList,
        sci := acc.sci ++ sciC.toList })
    ⟨[], [], [], [], []⟩

/-- The Siagri per-window field collection (pdf-processor.ts:1145-1175):
net weight in `[150,300]` at position 0, length in `[1,1.35]` at
indices 4–6, strength in `[25,35]` at indices 7–10, micronaire in
`[3.5,5.5]` at indices 9 and beyond; no SCI in this format. -/
def siagriCollectValues (segs : List (List Char)) : BaleLists :=
  segs.foldl (fun acc seg =>
    let numbers := siagriSegmentNumbers seg
    if numbers.length < 10 then acc
    else
      let w := numbers.getD 0 0
      let weights :=
        if decide (150 ≤ w) && decide (w ≤ 300) then acc.weights ++ [w] else acc.weights
      let uhmC := findWithIdx numbers (fun n idx =>
        decide (4 ≤ idx) && decide (idx ≤ 6) && decide (1 ≤ n) && decide (n ≤ mkRat 135 100))
      let strC := findWithIdx numbers (fun n idx =>
        decide (7 ≤ idx) && decide (idx ≤ 10) && decide (25 ≤ n) && decide (n ≤ 35))
      let micC := findWithIdx numbers (fun n idx =>
        decide (9 ≤ idx) && decide (mkRat 35 10 ≤ n) && decide (n ≤ mkRat 55 10))
      { weights := weights,
        mic := acc.mic ++ micC.toList,
        uhm := acc.uhm ++ uhmC.toList,
        strength := acc.strength ++ strC.toList,
        sci := acc.sci })
    ⟨[], [], [], [], []⟩

/-- The SCI adjacency scan over the numeric tokens of the full Média
line (pdf-processor.ts:772-781): from the second-to-last token
downward, the first token in `[100,180]` whose successor lies in
`[2000,2500]`. -/
def sciScanFromTokens (toks : List String) : Option JSNum :=
  ((List.range (toks.length - 1)).reverse).findSome? fun i =>
    let val := parseNumericValue (.str (toks.getD i ""))
    let nextVal :=
      if i + 1 < toks.length then parseNumericValue (.str (toks.getD (i + 1) ""))
      else .fin 0
    if jsGe val (.fin 100) && jsLe val (.fin 180) &&
       jsGe nextVal (.fin 2000) && jsLe nextVal (.fin 2500) then
      some val
    else none

/-- The Média-line SCI recovery (pdf-processor.ts:762-782). -/
def sciScanMedia (fullText : String) : Option JSNum :=
  match scanLeftmost mediaFullLineAt fullText.data with
  | none => none
  | some line => sciScanFromTokens ((numTokens line).map String.mk)

/-- The "Romaneio com HVI" summary extraction
(pdf-processor.ts:750-831): emits a record only when the Média
six-number row is found. -/
def romaneioBranch (fullText batchNumber batchWeight fileName : String) : Option BatchData :=
  let minimoLine := scanLeftmost (sixNumsAt minimoAlts) fullText.data
  let mediaLine := scanLeftmost (sixNumsAt mediaAlts) fullText.data
  let maximoLine := scanLeftmost (sixNumsAt maximoAlts) fullText.data
  let sciAvgValue := sciScanMedia fullText
  match mediaLine with
  | none => none
  | some caps =>
    let uhmAvgRaw := parseNumericValue (.str (caps.getD 1 ""))
    let micAvg := parseNumericValue (.str (caps.getD 2 ""))
    let strAvg := parseNumericValue (.str (caps.getD 4 ""))
    let uhmMinRaw := match minimoLine with
      | some m => parseNumericValue (.str (m.getD 1 "")) | none => uhmAvgRaw
    let uhmMaxRaw := match maximoLine with
      | some m => parseNumericValue (.str (m.getD 1 "")) | none => uhmAvgRaw
    let micMin := match minimoLine with
      | some m => parseNumericValue (.str (m.getD 2 "")) | none => micAvg
    let micMax := match maximoLine with
      | some m => parseNumericValue (.str (m.getD 2 "")) | none => micAvg
    let strMin := match minimoLine with
      | some m => parseNumericValue (.str (m.getD 4 "")) | none => strAvg
    let strMax := match maximoLine with
      | some m => parseNumericValue (.str (m.getD 4 "")) | none => strAvg
    let baleCount := countBaleCodes fullText
    some {
      batchNumber := batchNumber,
      batchWeight := batchWeight,
      numberOfBales := if 0 < baleCount then toString baleCount else "N/A",
      micMin := micMin, micAvg := micAvg, micMax := micMax,
      uhmMin := normalizeUhmToInches uhmMinRaw,
      uhmAvg := normalizeUhmToInches uhmAvgRaw,
      uhmMax := normalizeUhmToInches uhmMaxRaw,
      strMin := strMin, strAvg := strAvg, strMax := strMax,
      sciAvg := sciAvgValue,
      sourceFile := fileName }

/-- The G4 extraction with a summary line (pdf-processor.ts:866-993):
summary averages, per-bale min/max, per-bale SCI average. -/
def g4MainBranch (fullText fileName batchNumber batchWeight : String)
    (baleCodeCnt : Nat) (m : List Char × List (List Char)) : BatchData :=
  let caps := m.2
  let uhmAvg := parseNumericValue (.str (String.mk (caps.getD 1 [])))
  let strAvg := parseNumericValue (.str (String.mk (caps.getD 4 [])))
  let micAvg := parseNumericValue (.str (String.mk (caps.getD 6 [])))
  let positions := balePositions fullText
  let numberOfBales := if 0 < baleCodeCnt then toString baleCodeCnt else String.mk m.1
  let lists := g4CollectValues (baleSegments fullText positions 400) 10
  let batchWeight' :=
    if lists.weights.isEmpty then batchWeight else ratToFixed2 (sumQ lists.weights)
  let micStats := calculateStats (lists.mic.map .fin)
  let uhmStats := calculateStats (lists.uhm.map .fin)
  let strStats := calculateStats (lists.strength.map .fin)
  let sciStats := calculateStats (lists.sci.map .fin)
  { batchNumber := batchNumber, batchWeight := batchWeight',
    numberOfBales := numberOfBales,
    micMin := if 0 < micStats.min then .fin micStats.min else micAvg,
    micAvg := if jsGt micAvg (.fin 0) then micAvg else .fin micStats.avg,
    micMax := if 0 < micStats.max then .fin micStats.max else micAvg,
    uhmMin := if 0 < uhmStats.min then .fin uhmStats.min else uhmAvg,
    uhmAvg := if jsGt uhmAvg (.fin 0) then uhmAvg else .fin uhmStats.avg,
    uhmMax := if 0 < uhmStats.max then .fin uhmStats.max else uhmAvg,
    strMin := if 0 < strStats.min then .fin strStats.min else strAvg,
    strAvg := if jsGt strAvg (.fin 0) then strAvg else .fin strStats.avg,
    strMax := if 0 < strStats.max then .fin strStats.max else strAvg,
    sciAvg := if 0 < sciStats.avg then some (.fin sciStats.avg) else none,
    sourceFile := fileName }

/-- The G4 extraction without a summary line
(pdf-processor.ts:996-1100): emits a record only when some field list
is nonempty. -/
def g4DirectBranch (fullText fileName batchNumber batchWeight numberOfBales2 : String) :
    Option BatchData :=
  let positions := balePositions fullText
  let lists := g4CollectValues (baleSegments fullText positions 400) 8
  if lists.mic.isEmpty && lists.uhm.isEmpty && lists.strength.isEmpty then none
  else
    let batchWeight' :=
      if lists.weights.isEmpty then batchWeight else ratToFixed2 (sumQ lists.weights)
    let micStats := calculateStats (lists.mic.map .fin)
    let uhmStats := calculateStats (lists.uhm.map .fin)
    let strStats := calculateStats (lists.strength.map .fin)
    let sciStats := calculateStats (lists.sci.map .fin)
    some {
      batchNumber := batchNumber, batchWeight := batchWeight',
      numberOfBales :=
        if numberOfBales2 ≠ "N/A" then numberOfBales2 else toString positions.length,
      micMin := .fin micStats.min, micAvg := .fin micStats.avg, micMax := .fin micStats.max,
      uhmMin := .fin uhmStats.min, uhmAvg := .fin uhmStats.avg, uhmMax := .fin uhmStats.max,
      strMin := .fin strStats.min, strAvg := .fin strStats.avg, strMax := .fin strStats.max,
      sciAvg := if 0 < sciStats.avg then some (.fin sciStats.avg) else none,
      sourceFile := fileName }

/-- The Siagri extraction (pdf-processor.ts:1107-1207): emits a record
(SCI always null) only when some field list is nonempty. -/
def siagriBranch (fullText fileName batchNumber batchWeight3 numberOfBales3 : String) :
    Option BatchData :=
  let positions := balePositions fullText
  let lists := siagriCollectValues (baleSegments fullText positions 200)
  if lists.mic.isEmpty && lists.uhm.isEmpty && lists.strength.isEmpty then none
  else
    let micStats := calculateStats (lists.mic.map .fin)
    let uhmStats := calculateStats (lists.uhm.map .fin)
    let strStats := calculateStats (lists.strength.map .fin)
    some {
      batchNumber := batchNumber, batchWeight := batchWeight3,
      numberOfBales := numberOfBales3,
      micMin := .fin micStats.min, micAvg := .fin micStats.avg, micMax := .fin micStats.max,
      uhmMin := .fin uhmStats.min, uhmAvg := .fin uhmStats.avg, uhmMax := .fin uhmStats.max,
      strMin := .fin strStats.min, strAvg := .fin strStats.avg, strMax := .fin strStats.max,
      sciAvg := none,
      sourceFile := fileName }

/-- `/^00\d{10,}/` on a trimmed line (pdf-processor.ts:1308). -/
def startsBaleRow (l : List Char) : Bool :=
  match l with
  | '0' :: '0' :: t => 10 ≤ (t.takeWhile Char.isDigit).length
  | _ => false

/-- `/^\d{15,}/` on a trimmed line (pdf-processor.ts:1308). -/
def starts15Digits (l : List Char) : Bool := 15 ≤ (l.takeWhile Char.isDigit).length

/-- Numbers of a fallback data row (pdf-processor.ts:1309-1314): split
on whitespace, comma to period, keep simple numeric tokens, parse, keep
values below 10000. -/
def fallbackLineNumbers (line : List Char) : List ℚ :=
  ((((splitWs line).map (fun t => replaceFirst t ',' '.')).filter
    isSimpleNumTok).filterMap (fun t => jsParseFloat (String.mk t))).filter
    (fun n => decide (n < 10000))

/-- The range classification of one fallback number
(pdf-processor.ts:1317-1333), with the stateful length/strength
disambiguation: an ambiguous `[27,35]` value is strength once a length
value has been collected. -/
def classifyFallbackNum (acc : BaleLists) (n : ℚ) : BaleLists :=
  if decide (3 ≤ n) && decide (n ≤ 6) then { acc with mic := acc.mic ++ [n] }
  else if decide (mkRat 9 10 ≤ n) && decide (n ≤ mkRat 3 2) then
    { acc with uhm := acc.uhm ++ [n] }
  else if decide (25 ≤ n) && decide (n ≤ 40) then
    if decide (27 ≤ n) && decide (n ≤ 35) then
      if !acc.uhm.isEmpty then { acc with strength := acc.strength ++ [n] }
      else { acc with uhm := acc.uhm ++ [(normalizeUhmToInches (.fin n)).toQ] }
    else if decide (35 < n) then { acc with strength := acc.strength ++ [n] }
    else { acc with uhm := acc.uhm ++ [(normalizeUhmToInches (.fin n)).toQ] }
  else if decide (80 ≤ n) && decide (n ≤ 200) then { acc with sci := acc.sci ++ [n] }
  else acc

/-- The row-by-row fallback collection (pdf-processor.ts:1296-1335). -/
def fallbackRowValues (fullText : String) : BaleLists :=
  (splitLines fullText.data).foldl (fun acc line =>
    if startsBaleRow (jsTrim line) || starts15Digits (jsTrim line) then
      (fallbackLineNumbers line).foldl classifyFallbackNum acc
    else acc)
    ⟨[], [], [], [], []⟩

/-- The generic tail of the PDF extractor (pdf-processor.ts:1209-1374):
the standard bale patterns, the labelled summary rows, the row-by-row
fallback, and the final record. -/
def pdfStage4 (fullText fileName batchNumber numberOfBales batchWeight : String) : BatchData :=
  let p1 := scanLeftmost balesP1At fullText.data
  let p2 := scanLeftmost (litClassDigitsAt "fardos".data isColonSpace 1) fullText.data
  let p3 := scanLeftmost qtdFardosColonAt fullText.data
  let p4 := scanLeftmost pesoKgAt fullText.data
  let nb1 := match p1 with | some dw => String.mk dw.1 | none => numberOfBales
  let bw1 := match p1 with
    | some dw => String.mk (replaceFirst dw.2 ',' '.')
    | none => batchWeight
  let nb2 := match p2 with | some d => String.mk d | none => nb1
  let nb3 := match p3 with | some d => String.mk d | none => nb2
  let bw2 := match p4 with | some w => String.mk (replaceFirst w ',' '.') | none => bw1
  let stats0 := extractSummaryStats fullText
  let withFallback := decide (stats0.mic.avg = 0) && decide (stats0.str.avg = 0)
  let lists := fallbackRowValues fullText
  let stats1 :=
    if withFallback then
      let s1 := if lists.mic.isEmpty then stats0
        else { stats0 with mic := calculateStats (lists.mic.map .fin) }
      let s2 := if lists.uhm.isEmpty then s1
        else { s1 with uhm := calculateStats (lists.uhm.map .fin) }
      let s3 := if lists.strength.isEmpty then s2
        else { s2 with str := calculateStats (lists.strength.map .fin) }
      if lists.sci.isEmpty then s3
      else { s3 with sci := calculateStats (lists.sci.map .fin) }
    else stats0
  let nb4 :=
    if withFallback && nb3 = "N/A" && !lists.mic.isEmpty then
      toString lists.mic.length
    else nb3
  { batchNumber := batchNumber, batchWeight := bw2, numberOfBales := nb4,
    micMin := .fin stats1.mic.min, micAvg := .fin stats1.mic.avg, micMax := .fin stats1.mic.max,
    uhmMin := .fin stats1.uhm.min, uhmAvg := .fin stats1.uhm.avg, uhmMax := .fin stats1.uhm.max,
    strMin := .fin stats1.str.min, strAvg := .fin stats1.str.avg, strMax := .fin stats1.str.max,
    sciAvg := if 0 < stats1.sci.avg then some (.fin stats1.sci.avg) else none,
    sourceFile := fileName }

/-- The Siagri stage (pdf-processor.ts:1102-1207); its bale-count and
weight assignments persist into the generic tail when no record is
emitted. -/
def pdfStage3 (fullText fileName batchNumber numberOfBales batchWeight : String) : BatchData :=
  let siagriMatch := scanLeftmost siagriQtdAt fullText.data
  let isSiagri := containsStr fullText "Siagri" || containsStr fullText "ALGODOEIRA"
  let inSiagri := siagriMatch.isSome && isSiagri
  let numberOfBales3 := if inSiagri then String.mk (siagriMatch.getD []) else numberOfBales
  let batchWeight3 :=
    if inSiagri then
      let lists := siagriCollectValues (baleSegments fullText (balePositions fullText) 200)
      if lists.weights.isEmpty then batchWeight else ratToFixed2 (sumQ lists.weights)
    else batchWeight
  (if inSiagri then
      siagriBranch fullText fileName batchNumber batchWeight3 numberOfBales3
    else none).getD
    (pdfStage4 fullText fileName batchNumber numberOfBales3 batchWeight3)

/-- The G4 stage (pdf-processor.ts:834-1100); its bale-count assignment
persists into later stages when no record is emitted. -/
def pdfStage2 (fullText fileName batchNumber numberOfBales batchWeight : String) : BatchData :=
  let hasG4 := containsStr fullText "G4 COTTON" ||
    containsStr fullText "Classificação do Lote de Plumas" ||
    containsStr fullText "Classificacao do Lote de Plumas" ||
    (containsStr fullText "Romaneio" && (scanLeftmost fardoLiquidoAt fullText.data).isSome)
  let qtdAvg := scanLeftmost qtdFardosAvgAt fullText.data
  let baleCodeCnt := countBaleCodes fullText
  (if hasG4 then
      qtdAvg.map (g4MainBranch fullText fileName batchNumber batchWeight baleCodeCnt)
    else none).getD
    (let inDirect := hasG4 && qtdAvg.isNone
     let numberOfBales2 :=
       if inDirect then (if 0 < baleCodeCnt then toString baleCodeCnt else "N/A")
       else numberOfBales
     (if inDirect then
         g4DirectBranch fullText fileName batchNumber batchWeight numberOfBales2
       else none).getD
       (pdfStage3 fullText fileName batchNumber numberOfBales2 batchWeight))

/-- `extractDataFromPDF` (pdf-processor.ts:708-1375) at the level of
the extracted full text: batch number, the Romaneio-com-HVI branch,
then the remaining layout stages. -/
def extractDataFromPDF (fullText fileName : String) : BatchData :=
  let batchNumber := extractBatchNumber fullText fileName
  let romaneioHVI := (scanLeftmost romaneioComHVIAt fullText.data).isSome
  let pilhaLote :=
    scanLeftmost (litClassDigitsAt "pilha/lote".data isColonSpace 0) fullText.data
  let pesoLote := scanLeftmost pesoLoteAt fullText.data
  let condA := romaneioHVI ||
    (pilhaLote.isSome && containsStr fullText "MIC" && containsStr fullText "RES")
  let batchWeight1 :=
    if condA then
      match pesoLote with
      | some w => String.mk (replaceFirst w ',' '.')
      | none => "N/A"
    else "N/A"
  (if condA then romaneioBranch fullText batchNumber batchWeight1 fileName else none).getD
    (pdfStage2 fullText fileName batchNumber "N/A" batchWeight1)

-- #### The spec-side bale-code pattern (for claim C5)

/-- Match count of the bale-code pattern as the specification words it
("two literal zeros followed by 13 or more further digits"), with the
same global-scan semantics as `baleScanAux`.  This is the
specification-side definition to compare with the source's
`/00\d{14,}/g`. -/
def specBaleScan13Aux (fuel : Nat) (l : List Char) : Nat :=
  match fuel, l with
  | _, [] => 0
  | 0, _ => 0
  | fuel + 1, '0' :: '0' :: rest =>
    let ds := rest.takeWhile Char.isDigit
    if 13 ≤ ds.length then 1 + specBaleScan13Aux fuel (rest.drop ds.length)
    else specBaleScan13Aux fuel ('0' :: rest)
  | fuel + 1, _ :: rest => specBaleScan13Aux fuel rest

/-- Count of bale codes under the specification's 13-digit pattern. -/
def specBaleCodeCount13 (text : String) : Nat :=
  specBaleScan13Aux text.data.length text.data

/-- `/^00\d{13,}/.test(firstCell)` (pdf-processor.ts:502): the
spreadsheet first-cell long-bale-code check, anchored at the start. -/
def isLongBaleCode (l : List Char) : Bool :=
  match l with
  | '0' :: '0' :: t => 13 ≤ (t.takeWhile Char.isDigit).length
  | _ => false

-- #### Spreadsheet columns: alias table and field locator

/-- The keys of `COLUMN_ALIASES` (pdf-processor.ts:22-90). -/
inductive FieldKey where
  | mic | uhm | str | ui | sfi | elg | rd | plusb | sci | csp | mat | leaf
  | weight | bale | lot | baleCount
deriving DecidableEq, Repr

/-- `COLUMN_ALIASES` (pdf-processor.ts:22-90). -/
def COLUMN_ALIASES : FieldKey → List String
  | .mic => ["mic", "micron", "micron.", "micronaire", "micronare", "micronário"]
  | .uhm => ["uhm", "uhml", "uhl", "len", "length", "comprimento", "comp",
      "fibra", "fb", "staple", "staple length"]
  | .str => ["str", "res", "resist", "resist.", "strength", "resistência",
      "resistencia", "tenacidade", "tenacity", "gf/tex"]
  | .ui => ["ui", "unif", "uniformidade", "uniformity", "unf"]
  | .sfi => ["sfi", "sfc", "fc", "short fiber", "fibras curtas", "fibra curta"]
  | .elg => ["elg", "along", "alongamento", "elongation", "elong"]
  | .rd => ["rd", "reflectance", "reflectância", "reflectancia", "brilho"]
  | .plusb => ["+b", "b", "amarelamento", "yellowness", "amarelo"]
  | .sci => ["sci", "spinning consistency", "consistência"]
  | .csp => ["csp", "count strength", "produto resistência"]
  | .mat => ["mat", "maturity", "maturidade", "matur"]
  | .leaf => ["leaf", "lf", "trash", "trid", "folha", "impurezas", "trash grade"]
  | .weight => ["peso", "weight", "líquido", "liquido", "net weight", "peso líquido",
      "peso liquido", "kg", "kilos"]
  | .bale => ["fardo", "bale", "código gs1", "codigo gs1", "bale id", "nº fardo",
      "numero fardo", "n fardo"]
  | .lot => ["lote", "lot", "bloco", "romaneio", "batch", "block", "lote nº",
      "lote numero", "lot no", "lot #", "lote #", "n° lote", "nº lote",
      "lot number", "batch number", "batch no", "take up", "takeup",
      "pilha", "pile", "pilha/lote"]
  | .baleCount => ["qtde fardos", "qtd fardos", "fardos", "qty bales", "bale count",
      "quantidade", "qtde", "qty"]

/-- Lower-case a whole string (`String.prototype.toLowerCase`). -/
def jsLowerStr (s : String) : String := String.mk (s.data.map jsToLowerChar)

/-- Collapse whitespace runs to single spaces (`replace(/\s+/g, ' ')`). -/
def collapseWs (fuel : Nat) (l : List Char) : List Char :=
  match fuel, l with
  | _, [] => []
  | 0, _ => []
  | fuel + 1, c :: rest =>
    if jsIsWhitespace c then ' ' :: collapseWs fuel (rest.dropWhile jsIsWhitespace)
    else c :: collapseWs fuel rest

/-- Header normalization of `findColumnIndex` (pdf-processor.ts:154-161):
lower-case, trim, strip brackets and parentheses, collapse whitespace. -/
def normalizeHeader (h : String) : String :=
  let l₁ := jsTrim (h.data.map jsToLowerChar)
  let l₂ := l₁.filter (fun c => !(c = '[' || c = ']' || c = '(' || c = ')'))
  String.mk (collapseWs l₂.length l₂)

/-- `findColumnIndex` (pdf-processor.ts:149-181): exact alias match
first, then substring match in either direction; -1 when not found. -/
def findColumnIndex (headers : List String) (fieldType : FieldKey) : Int :=
  let aliases := COLUMN_ALIASES fieldType
  let normalized := headers.map normalizeHeader
  match aliases.findSome? (fun a =>
      normalized.findIdx? (fun h => h = jsLowerStr a)) with
  | some i => (i : Int)
  | none =>
    match aliases.findSome? (fun a =>
        let aLower := jsLowerStr a
        normalized.findIdx? (fun h =>
          containsStr h aLower || (0 < h.length && containsStr aLower h))) with
    | some i => (i : Int)
    | none => -1

-- #### Spreadsheet rows and the three sheet paths

/-- Formatting of a JavaScript number as a string (`toString`).  Exact
for NaN, the infinities and integer values; finite non-integral values
(which JavaScript prints in shortest round-trip decimal form) are
rendered as `num/den` — an idealization that claims only use on both
sides of an equality at once. -/
def jsNumToString (v : JSNum) : String :=
  match v with
  | .nan => "NaN"
  | .posInf => "Infinity"
  | .negInf => "-Infinity"
  | .fin q => if q.den = 1 then toString q.num else toString q.num ++ "/" ++ toString q.den

/-- `String(cell)`. -/
def jsValueToString : JSValue → String
  | .null => "null"
  | .undef => "undefined"
  | .str s => s
  | .num n => jsNumToString n

/-- `cell?.toString()` (`none` models `undefined`). -/
def optCellToString : JSValue → Option String
  | .null => none
  | .undef => none
  | .str s => some s
  | .num n => some (jsNumToString n)

/-- The `cell === null || cell === undefined ? '' : String(cell)`
conversion of the header scan (pdf-processor.ts:452-454). -/
def rowAsStrings (row : List JSValue) : List String :=
  row.map (fun c => match c with
    | .null => ""
    | .undef => ""
    | c => jsValueToString c)

/-- `Number.prototype.toFixed(2)` on a JavaScript number. -/
def jsToFixed2 (v : JSNum) : String :=
  match v with
  | .nan => "NaN"
  | .posInf => "Infinity"
  | .negInf => "-Infinity"
  | .fin q => ratToFixed2 q

/-- The summary-row keyword blacklist (pdf-processor.ts:302-309). -/
def summaryKeywords : List String :=
  ["média", "media", "average", "avg",
   "mínimo", "minimo", "minimum", "min",
   "máximo", "maximo", "maximum", "max",
   "desvio", "deviation", "std", "sd",
   "c.v", "cv%", "coeficiente",
   "qtd fardos", "fardos:", "total", "sum"]

/-- `isSummaryRow` (pdf-processor.ts:298-311). -/
def isSummaryRow (firstCell : JSValue) : Bool :=
  match firstCell with
  | .null => false
  | .undef => false
  | c =>
    let str := jsLowerStr (jsValueToString c)
    if str = "" then false
    else summaryKeywords.any (fun kw => containsStr str kw)

/-- The header-row scan (pdf-processor.ts:447-469): among the first 15
rows, the first with at least 3 cells in which at least 2 of the
mic/str/uhm columns are recognizable. -/
def findHeaderRow (rawData : List (List JSValue)) : Option (Nat × List String) :=
  ((rawData.take 15).enum.find? (fun p =>
    if p.2.length < 3 then false
    else
      let rs := rowAsStrings p.2
      2 ≤ (([findColumnIndex rs .mic, findColumnIndex rs .str,
        findColumnIndex rs .uhm].filter (fun i => 0 ≤ i)).length))).map
    (fun p => (p.1, rowAsStrings p.2))

/-- The column map built from the header row (pdf-processor.ts:478-489). -/
structure ColumnMap where
  mic : Int
  uhm : Int
  str : Int
  sci : Int
  lot : Int
  weight : Int
  bale : Int
  baleCount : Int
  ui : Int
  sfi : Int
deriving DecidableEq, Repr

/-- `columnMap` construction (pdf-processor.ts:478-489). -/
def mkColumnMap (headers : List String) : ColumnMap :=
  { mic := findColumnIndex headers .mic,
    uhm := findColumnIndex headers .uhm,
    str := findColumnIndex headers .str,
    sci := findColumnIndex headers .sci,
    lot := findColumnIndex headers .lot,
    weight := findColumnIndex headers .weight,
    bale := findColumnIndex headers .bale,
    baleCount := findColumnIndex headers .baleCount,
    ui := findColumnIndex headers .ui,
    sfi := findColumnIndex headers .sfi }

/-- The parsed value of a row at a (possibly absent) column index. -/
def rowValue (i : Int) (row : List JSValue) : JSNum :=
  if 0 ≤ i then parseNumericValue (row.getD i.toNat .undef) else .fin 0

/-- `String(row[columnMap.lot] ?? '').trim()` (pdf-processor.ts:524),
empty when no lot column exists. -/
def lotKeyOf (cm : ColumnMap) (row : List JSValue) : String :=
  if 0 ≤ cm.lot then
    String.mk (jsTrim (match row.getD cm.lot.toNat .undef with
      | .null => ""
      | .undef => ""
      | c => jsValueToString c).data)
  else ""

/-- The per-lot accumulator of the grouped path
(pdf-processor.ts:510-517). -/
structure LotAcc where
  micValues : List JSNum
  uhmValues : List JSNum
  strValues : List JSNum
  sciValues : List JSNum
  weightValues : List JSNum
  baleCount : JSNum
deriving DecidableEq, Repr

/-- A fresh lot accumulator (pdf-processor.ts:539-546). -/
def emptyLotAcc : LotAcc := ⟨[], [], [], [], [], .fin 0⟩

/-- A row's bale-count contribution in the grouped path
(`baleCountValue || 1`, pdf-processor.ts:532/555): the parsed value of
the bale-count column when present and truthy, 1 otherwise. -/
def baleContribution (cm : ColumnMap) (row : List JSValue) : JSNum :=
  let b := if 0 ≤ cm.baleCount then parseNumericValue (row.getD cm.baleCount.toNat .undef)
    else .fin 1
  if jsTruthy b then b else .fin 1

/-- The row guards of the grouped path (pdf-processor.ts:520-535): at
least 3 cells, not a summary row, a nonempty lot key, and not all of
mic/str/uhm strictly equal to 0. -/
def groupedRowKept (cm : ColumnMap) (row : List JSValue) : Bool :=
  !(row.length < 3) && !isSummaryRow (row.getD 0 .undef) &&
  !(lotKeyOf cm row = "") &&
  !(rowValue cm.mic row = .fin 0 && rowValue cm.str row = .fin 0 &&
    rowValue cm.uhm row = .fin 0)

/-- Adding one kept row to a lot accumulator (pdf-processor.ts:549-555):
each strictly positive value joins its list, and the bale count grows
by the row's contribution. -/
def accAddRow (cm : ColumnMap) (row : List JSValue) (acc : LotAcc) : LotAcc :=
  { micValues := acc.micValues ++
      (if jsGt (rowValue cm.mic row) (.fin 0) then [rowValue cm.mic row] else []),
    uhmValues := acc.uhmValues ++
      (if jsGt (rowValue cm.uhm row) (.fin 0) then [rowValue cm.uhm row] else []),
    strValues := acc.strValues ++
      (if jsGt (rowValue cm.str row) (.fin 0) then [rowValue cm.str row] else []),
    sciValues := acc.sciValues ++
      (if jsGt (rowValue cm.sci row) (.fin 0) then [rowValue cm.sci row] else []),
    weightValues := acc.weightValues ++
      (if jsGt (rowValue cm.weight row) (.fin 0) then [rowValue cm.weight row] else []),
    baleCount := jsAdd acc.baleCount (baleContribution cm row) }

/-- `Map.set` with JavaScript insertion-order semantics: modify the
entry in place, or append a fresh one at the end. -/
def updateLot (m : List (String × LotAcc)) (key : String) (f : LotAcc → LotAcc) :
    List (String × LotAcc) :=
  match m with
  | [] => [(key, f emptyLotAcc)]
  | (k, a) :: rest => if k = key then (k, f a) :: rest else (k, a) :: updateLot rest key f

/-- One grouped-path row step (pdf-processor.ts:519-556). -/
def groupedStep (cm : ColumnMap) (m : List (String × LotAcc)) (row : List JSValue) :
    List (String × LotAcc) :=
  if groupedRowKept cm row then updateLot m (lotKeyOf cm row) (accAddRow cm row) else m

/-- The grouped-path lot map after all data rows. -/
def groupedFold (cm : ColumnMap) (rows : List (List JSValue)) : List (String × LotAcc) :=
  rows.foldl (groupedStep cm) []

/-- One LotRecord per grouped lot (pdf-processor.ts:559-582). -/
def groupedRecords (cm : ColumnMap) (rows : List (List JSValue)) (fileName : String) :
    List BatchData :=
  (groupedFold cm rows).map (fun p =>
    let lotData := p.2
    let micStats := calculateStats lotData.micValues
    let uhmStats := calculateStats lotData.uhmValues
    let strStats := calculateStats lotData.strValues
    let sciStats := calculateStats lotData.sciValues
    let totalWeight := lotData.weightValues.foldl jsAdd (.fin 0)
    { batchNumber := p.1,
      batchWeight := if jsGt totalWeight (.fin 0) then jsToFixed2 totalWeight else "N/A",
      numberOfBales := jsNumToString lotData.baleCount,
      micMin := .fin micStats.min, micAvg := .fin micStats.avg, micMax := .fin micStats.max,
      uhmMin := .fin uhmStats.min, uhmAvg := .fin uhmStats.avg, uhmMax := .fin uhmStats.max,
      strMin := .fin strStats.min, strAvg := .fin strStats.avg, strMax := .fin strStats.max,
      sciAvg := if 0 < sciStats.avg then some (.fin sciStats.avg) else none,
      sourceFile := fileName })

/-- `sciValue && sciValue > 0 ? sciValue : null` (pdf-processor.ts:619). -/
def summarySciAvg (sciValue : Option JSNum) : Option JSNum :=
  match sciValue with
  | some sv => if jsTruthy sv && jsGt sv (.fin 0) then some sv else none
  | none => none

/-- The already-aggregated per-row path (pdf-processor.ts:585-622):
each kept row is a ready-made record. -/
def summaryRecords (cm : ColumnMap) (rows : List (List JSValue)) (fileName : String) :
    List BatchData :=
  rows.filterMap (fun row =>
    if row.length < 3 then none
    else if isSummaryRow (row.getD 0 .undef) then none
    else
      let micValue := rowValue cm.mic row
      let uhmValue := rowValue cm.uhm row
      let strValue := rowValue cm.str row
      let sciValue : Option JSNum :=
        if 0 ≤ cm.sci then some (parseNumericValue (row.getD cm.sci.toNat .undef)) else none
      let weightValue : Option String :=
        if 0 ≤ cm.weight then optCellToString (row.getD cm.weight.toNat .undef) else some ""
      let baleCountValue : Option String :=
        if 0 ≤ cm.baleCount then optCellToString (row.getD cm.baleCount.toNat .undef)
        else some ""
      if micValue = .fin 0 && strValue = .fin 0 && uhmValue = .fin 0 then none
      else
        let normalizedUhm := normalizeUhmToInches uhmValue
        some {
          batchNumber := extractBatchNumber "" fileName,
          batchWeight := match weightValue with
            | some w => if w ≠ "" then String.mk (replaceFirst w.data ',' '.') else "N/A"
            | none => "N/A",
          numberOfBales := match baleCountValue with
            | some b => if b ≠ "" then b else "N/A"
            | none => "N/A",
          micMin := micValue, micAvg := micValue, micMax := micValue,
          uhmMin := normalizedUhm, uhmAvg := normalizedUhm, uhmMax := normalizedUhm,
          strMin := strValue, strAvg := strValue, strMax := strValue,
          sciAvg := summarySciAvg sciValue,
          sourceFile := fileName })

/-- The flat accumulator of the raw-bale path (pdf-processor.ts:627-632). -/
structure RawAcc where
  micValues : List JSNum
  uhmValues : List JSNum
  strValues : List JSNum
  sciValues : List JSNum
  weightValues : List JSNum
  lotNumber : String
deriving DecidableEq, Repr

/-- Append the parsed value of a row's cell at a (possibly absent)
column when it is strictly positive (the push pattern of
pdf-processor.ts:640-659). -/
def pushIfPos (col : Int) (row : List JSValue) (l : List JSNum) : List JSNum :=
  if 0 ≤ col then
    let val := parseNumericValue (row.getD col.toNat .undef)
    if jsGt val (.fin 0) then l ++ [val] else l
  else l

/-- The length push normalizes to inches first (pdf-processor.ts:646). -/
def pushUhmIfPos (col : Int) (row : List JSValue) (l : List JSNum) : List JSNum :=
  if 0 ≤ col then
    let val := parseNumericValue (row.getD col.toNat .undef)
    if jsGt val (.fin 0) then l ++ [normalizeUhmToInches val] else l
  else l

/-- The lot-number capture of the raw path (pdf-processor.ts:660-663):
first truthy, non-"0" lot cell wins. -/
def rawLotUpdate (col : Int) (row : List JSValue) (cur : String) : String :=
  if 0 ≤ col && cur = "" then
    match optCellToString (row.getD col.toNat .undef) with
    | some v => if v ≠ "" && v ≠ "0" then v else cur
    | none => cur
  else cur

/-- One raw-path row step (pdf-processor.ts:634-664).  The source
mutates each field independently; the record update is the same
transformation. -/
def rawStep (cm : ColumnMap) (acc : RawAcc) (row : List JSValue) : RawAcc :=
  if row.length < 3 then acc
  else if isSummaryRow (row.getD 0 .undef) then acc
  else
    { micValues := pushIfPos cm.mic row acc.micValues,
      uhmValues := pushUhmIfPos cm.uhm row acc.uhmValues,
      strValues := pushIfPos cm.str row acc.strValues,
      sciValues := pushIfPos cm.sci row acc.sciValues,
      weightValues := pushIfPos cm.weight row acc.weightValues,
      lotNumber := rawLotUpdate cm.lot row acc.lotNumber }

/-- The raw-bale path's single record (pdf-processor.ts:666-694),
emitted only when some field list is nonempty. -/
def rawRecord (cm : ColumnMap) (rows : List (List JSValue)) (fileName sheetName : String) :
    Option BatchData :=
  let acc := rows.foldl (rawStep cm) ⟨[], [], [], [], [], ""⟩
  if acc.micValues.isEmpty && acc.uhmValues.isEmpty && acc.strValues.isEmpty then none
  else
    let micStats := calculateStats acc.micValues
    let uhmStats := calculateStats acc.uhmValues
    let strStats := calculateStats acc.strValues
    let sciStats := calculateStats acc.sciValues
    let totalWeight := acc.weightValues.foldl jsAdd (.fin 0)
    let sheetLot := String.mk (sheetName.data.filter Char.isDigit)
    let finalLotNumber :=
      if acc.lotNumber ≠ "" then acc.lotNumber
      else if sheetLot ≠ "" then sheetLot
      else extractBatchNumber "" fileName
    some {
      batchNumber := finalLotNumber,
      batchWeight := if jsGt totalWeight (.fin 0) then jsToFixed2 totalWeight else "N/A",
      numberOfBales := toString (max acc.micValues.length
        (max acc.uhmValues.length acc.strValues.length)),
      micMin := .fin micStats.min, micAvg := .fin micStats.avg, micMax := .fin micStats.max,
      uhmMin := .fin uhmStats.min, uhmAvg := .fin uhmStats.avg, uhmMax := .fin uhmStats.max,
      strMin := .fin strStats.min, strAvg := .fin strStats.avg, strMax := .fin strStats.max,
      sciAvg := if 0 < sciStats.avg then some (.fin sciStats.avg) else none,
      sourceFile := fileName ++ " [" ++ sheetName ++ "]" }

/-- One sheet of `extractDataFromExcel` (pdf-processor.ts:435-695):
header detection, column mapping, and dispatch to the grouped,
already-aggregated or raw path. -/
def processSheet (rawData : List (List JSValue)) (fileName sheetName : String) :
    List BatchData :=
  if rawData.length < 2 then []
  else
    match findHeaderRow rawData with
    | none => []
    | some hr =>
      let cm := mkColumnMap hr.2
      let dataRows := rawData.drop (hr.1 + 1)
      let firstCellValue :=
        match optCellToString ((rawData.getD (hr.1 + 1) []).getD 0 .undef) with
        | some v => v
        | none => ""
      let firstCellIsLongBaleCode := isLongBaleCode firstCellValue.data
      if 0 ≤ cm.lot && (0 ≤ cm.bale || !firstCellIsLongBaleCode) then
        groupedRecords cm dataRows fileName
      else if 0 ≤ cm.baleCount && !firstCellIsLongBaleCode && cm.lot < 0 then
        summaryRecords cm dataRows fileName
      else
        (rawRecord cm dataRows fileName sheetName).toList

/-- Sheet-name keywords marking summary sheets (pdf-processor.ts:405). -/
def summarySheetKeywords : List String := ["resumo", "summary", "totais", "total", "consolidado"]

/-- Sheet-name keywords marking preferred detail sheets
(pdf-processor.ts:406). -/
def preferredSheetKeywords : List String :=
  ["analítico", "analitico", "analytic", "dados", "data", "detail", "detalhe",
   "fardos", "bales", "hvi"]

/-- The sheet selection of `extractDataFromExcel`
(pdf-processor.ts:408-433): with several sheets, prefer detail sheets,
otherwise exclude summary sheets, otherwise keep all. -/
def selectSheets (wb : List (String × List (List JSValue))) :
    List (String × List (List JSValue)) :=
  if wb.length ≤ 1 then wb
  else
    let preferred := wb.filter (fun s =>
      preferredSheetKeywords.any (fun kw => containsStr (jsLowerStr s.1) kw))
    if !preferred.isEmpty then preferred
    else
      let nonSummary := wb.filter (fun s =>
        !(summarySheetKeywords.any (fun kw => containsStr (jsLowerStr s.1) kw)))
      if !nonSummary.isEmpty then nonSummary else wb

/-- `extractDataFromExcel` (pdf-processor.ts:396-703) over an already
parsed workbook: concatenate the selected sheets' records, failing when
none were produced. -/
def extractDataFromExcel (wb : List (String × List (List JSValue))) (fileName : String) :
    Except String (List BatchData) :=
  let results := (selectSheets wb).foldl (fun acc s => acc ++ processSheet s.2 fileName s.1) []
  if results.isEmpty then .error ("Nenhum dado encontrado no arquivo Excel: " ++ fileName)
  else .ok results

-- #### Batch entry point and output assembler

/-- Zero-padded decimal rendering of a natural number. -/
def padZeros (w : Nat) (m : Nat) : String :=
  let s := toString m
  String.mk (List.replicate (w - s.length) '0' ++ s.data)

/-- `Number.prototype.toFixed(d)` for a nonnegative rational. -/
def ratToFixedPos (d : Nat) (q : ℚ) : String :=
  let n := ratFloor (ratAdd (ratMul q (mkRat ((10 : ℤ) ^ d) 1)) (mkRat 1 2))
  toString (n / ((10 : ℤ) ^ d)) ++ "." ++ padZeros d ((n % ((10 : ℤ) ^ d)).toNat)

/-- `Number.prototype.toFixed(d)`. -/
def ratToFixed (d : Nat) (q : ℚ) : String :=
  if q < 0 then "-" ++ ratToFixedPos d (ratNeg q) else ratToFixedPos d q

/-- `Number.prototype.toFixed(d)` on a JavaScript number. -/
def jsToFixed (d : Nat) (v : JSNum) : String :=
  match v with
  | .nan => "NaN"
  | .posInf => "Infinity"
  | .negInf => "-Infinity"
  | .fin q => ratToFixed d q

/-- A stat cell of the output table: fixed-precision when positive,
`"N/A"` otherwise (pdf-processor.ts:1416-1424). -/
def statCell (d : Nat) (v : JSNum) : String :=
  if jsGt v (.fin 0) then jsToFixed d v else "N/A"

/-- The rows of the workbook built by `generateExcel`
(pdf-processor.ts:1380-1434): header row plus one row per record; the
SCI column appears only when some record carries a positive SCI. -/
def generateExcelRows (data : List BatchData) : List (List String) :=
  let hasSCI := data.any (fun row =>
    match row.sciAvg with
    | some v => jsGt v (.fin 0)
    | none => false)
  let headers :=
    ["Lote (Batch)", "Peso Total (kg)", "Qtd Fardos",
     "Mic (min)", "Mic (média)", "Mic (max)",
     "UHM (min)", "UHM (média)", "UHM (max)",
     "Str (min)", "Str (média)", "Str (max)"] ++
    (if hasSCI then ["SCI (média)"] else []) ++ ["Arquivo Origem"]
  headers :: data.map (fun row =>
    [row.batchNumber, row.batchWeight, row.numberOfBales,
     statCell 2 row.micMin, statCell 2 row.micAvg, statCell 2 row.micMax,
     statCell 3 row.uhmMin, statCell 3 row.uhmAvg, statCell 3 row.uhmMax,
     statCell 1 row.strMin, statCell 1 row.strAvg, statCell 1 row.strMax] ++
    (if hasSCI then
      [match row.sciAvg with
       | some v => if jsGt v (.fin 0) then jsToFixed 1 v else "N/A"
       | none => "N/A"]
    else []) ++ [row.sourceFile])

/-- The interpreted content of an input file: the extracted full text
for a PDF, or the parsed workbook for a spreadsheet. -/
inductive FileContent where
  | pdfText : String → FileContent
  | workbook : List (String × List (List JSValue)) → FileContent
deriving DecidableEq, Repr

/-- An input file: name plus interpreted content. -/
structure MFile where
  name : String
  content : FileContent
deriving DecidableEq, Repr

instance : Inhabited MFile := ⟨⟨"", .pdfText ""⟩⟩

/-- `file.name.split('.').pop()?.toLowerCase()`: the lower-cased suffix
after the last period (the whole name when no period occurs). -/
def extOf (name : String) : String :=
  String.mk ((name.data.reverse.takeWhile (fun c => c ≠ '.')).reverse.map jsToLowerChar)

/-- The error message a parser raises on content of the wrong kind, as
wrapped by the batch loop's catch (`"Erro desconhecido"` stands for the
library's own message, which the loop only forwards). -/
def parseFailureMsg : String := "Erro desconhecido"

/-- One file of the batch loop (pdf-processor.ts:351-363): dispatch on
the extension, unsupported extensions raise
`Formato não suportado: <ext>`. -/
def processOne (f : MFile) : Except String (List BatchData) :=
  let ext := extOf f.name
  if ext = "xlsx" || ext = "xls" then
    match f.content with
    | .workbook wb => extractDataFromExcel wb f.name
    | _ => .error parseFailureMsg
  else if ext = "pdf" then
    match f.content with
    | .pdfText t => .ok [extractDataFromPDF t f.name]
    | _ => .error parseFailureMsg
  else .error ("Formato não suportado: " ++ ext)

/-- The batch loop (pdf-processor.ts:349-370): sequential, first
failure wrapped with the file name and aborting the remainder. -/
def processLoop : List MFile → List BatchData → Except String (List BatchData)
  | [], acc => .ok acc
  | f :: rest, acc =>
    match processOne f with
    | .ok data => processLoop rest (acc ++ data)
    | .error msg => .error ("Falha ao processar " ++ f.name ++ ": " ++ msg)

/-- The result of `processFilesWithData` (pdf-processor.ts:333-336):
the rendered artifact rows and the record list. -/
structure ProcessResult where
  blob : List (List String)
  data : List BatchData
deriving DecidableEq, Repr

/-- `processFilesWithData` (pdf-processor.ts:339-374). -/
def processFilesWithData (files : List MFile) : Except String ProcessResult :=
  match processLoop files [] with
  | .error e => .error e
  | .ok results => .ok ⟨generateExcelRows results, results⟩

-- #### Claim C3: the Média-line SCI adjacency scan

/-- The average-row text of the end-to-end scenario. -/
def mediaRowText : String :=
  "Média - 30,48 1,20 4,2 82,42 30,78 6,76 78,56 8,74 - ,32 41,32 2,67 ,88 7,89 138 2279"

set_option maxRecDepth 200000 in
/-- C3 counterexample: for a PDF whose extracted text is exactly the
quoted Média row (so no Romaneio-com-HVI format marker precedes it),
the extraction result has `spinningConsistencyAvg = null`, not 138 —
the adjacency scan only runs inside the Romaneio-com-HVI branch. -/
theorem claim_C3_counterexample :
    (extractDataFromPDF mediaRowText "f.pdf").sciAvg = none ∧
    (extractDataFromPDF mediaRowText "f.pdf").sciAvg ≠ some (JSNum.fin 138) := by
  exact ⟨by decide, by decide⟩

set_option maxRecDepth 200000 in
/-- C3 amended: for a PDF document classified into the
Romaneio-com-HVI branch (its text declares "Romaneio com HVI") whose
extracted text contains the quoted Média row, the extraction result has
`spinningConsistencyAvg = 138`, recovered by scanning the average-row's
token list for a 3-digit value in `[100,180]` immediately followed by a
4-digit value in `[2000,2500]` (here the trailing `138 2279`). -/
theorem claim_C3_amended :
    (extractDataFromPDF ("Romaneio com HVI\n" ++ mediaRowText) "f.pdf").sciAvg
      = some (JSNum.fin 138) ∧
    sciScanMedia ("Romaneio com HVI\n" ++ mediaRowText) = some (JSNum.fin 138) := by
  exact ⟨by decide, by decide⟩

-- #### Claim C4 counterexample: the generic PDF path emits empty records

set_option maxRecDepth 200000 in
/-- C4 counterexample: a PDF document with no recognizable data (empty
extracted text) is processed by the generic path into a LotRecord whose
micronaire, fiber-length and strength samples are all absent (all nine
statistics zero), and that record IS emitted into the batch result
list. -/
theorem claim_C4_counterexample :
    (processFilesWithData [⟨"x.pdf", .pdfText ""⟩]).toOption.map ProcessResult.data =
      some [extractDataFromPDF "" "x.pdf"] ∧
    (extractDataFromPDF "" "x.pdf").micMin = .fin 0 ∧
    (extractDataFromPDF "" "x.pdf").micAvg = .fin 0 ∧
    (extractDataFromPDF "" "x.pdf").micMax = .fin 0 ∧
    (extractDataFromPDF "" "x.pdf").uhmMin = .fin 0 ∧
    (extractDataFromPDF "" "x.pdf").uhmAvg = .fin 0 ∧
    (extractDataFromPDF "" "x.pdf").uhmMax = .fin 0 ∧
    (extractDataFromPDF "" "x.pdf").strMin = .fin 0 ∧
    (extractDataFromPDF "" "x.pdf").strAvg = .fin 0 ∧
    (extractDataFromPDF "" "x.pdf").strMax = .fin 0 := by
  refine ⟨by decide, by decide, by decide, by decide, by decide, by decide, by decide,
    by decide, by decide, by decide⟩

-- #### Claim C5: the bale-code pattern

set_option maxRecDepth 20000 in
/-- C5 counterexample: a 15-digit identifier starting with two zeros
("00" followed by 13 further digits) is NOT matched by the PDF paths'
bale-code scanner (`/00\d{14,}/g` requires 14 further digits, 16+ in
total), although the claimed 13-digit pattern matches it. -/
theorem claim_C5_counterexample :
    countBaleCodes "001234567890123" = 0 ∧
    specBaleCodeCount13 "001234567890123" = 1 ∧
    ("001234567890123" : String).length = 15 := by
  exact ⟨by decide, by decide, by decide⟩

theorem takeWhile_digit_replicate (n : Nat) :
    (List.replicate n '1').takeWhile Char.isDigit = List.replicate n '1' := by
  induction n with
  | zero => rfl
  | succ n ih => simp [List.replicate_succ, List.takeWhile_cons, ih]

theorem baleScan_ones (fuel : Nat) : ∀ k pos, baleScanAux fuel (List.replicate k '1') pos = [] := by
  induction fuel with
  | zero =>
    intro k pos
    cases k with
    | zero => rfl
    | succ k => rfl
  | succ fuel ih =>
    intro k pos
    cases k with
    | zero => rfl
    | succ k =>
      show baleScanAux (fuel + 1) ('1' :: List.replicate k '1') pos = []
      rw [show baleScanAux (fuel + 1) ('1' :: List.replicate k '1') pos =
        baleScanAux fuel (List.replicate k '1') (pos + 1) from rfl]
      exact ih k (pos + 1)

set_option maxRecDepth 20000 in
/-- C5 amended: in the per-bale PDF extraction paths the bale-code
pattern is two literal zeros followed by 14 or more further digits
(16 or more digits in total): an identifier `00` followed by `n`
digits is counted (and yields a segmentation position) exactly when
`n ≥ 14`.  The 13-digit variant of the pattern appears only in the
spreadsheet first-cell check. -/
theorem claim_C5_amended (n : Nat) :
    countBaleCodes (String.mk ('0' :: '0' :: List.replicate n '1')) =
      (if 14 ≤ n then 1 else 0) ∧
    balePositions (String.mk ('0' :: '0' :: List.replicate n '1')) =
      (if 14 ≤ n then [n + 2] else []) ∧
    isLongBaleCode ('0' :: '0' :: List.replicate n '1') = decide (13 ≤ n) := by
  have hdata : (String.mk ('0' :: '0' :: List.replicate n '1')).data =
      '0' :: '0' :: List.replicate n '1' := rfl
  have hscan : baleScanAux ('0' :: '0' :: List.replicate n '1').length
      ('0' :: '0' :: List.replicate n '1') 0 =
      (if 14 ≤ n then [(0, 2 + n)] else []) := by
    have hlen : ('0' :: '0' :: List.replicate n '1').length = n + 1 + 1 := by
      simp [List.length_replicate]
    rw [hlen]
    show (let ds := (List.replicate n '1').takeWhile Char.isDigit
      if 14 ≤ ds.length then
        (0, 2 + ds.length) :: baleScanAux (n + 1) ((List.replicate n '1').drop ds.length)
          (0 + 2 + ds.length)
      else baleScanAux (n + 1) ('0' :: List.replicate n '1') (0 + 1)) = _
    rw [takeWhile_digit_replicate]
    simp only [List.length_replicate]
    by_cases h : 14 ≤ n
    · simp only [h, if_true]
      rw [List.drop_replicate]
      simp only [Nat.sub_self, List.replicate_zero]
      rfl
    · simp only [h, if_false]
      cases n with
      | zero => rfl
      | succ m =>
        rw [List.replicate_succ]
        show baleScanAux (m + 1) ('1' :: List.replicate m '1') (0 + 1 + 1) = []
        rw [← List.replicate_succ]
        exact baleScan_ones (m + 1) (m + 1) (0 + 1 + 1)
  refine ⟨?_, ?_, ?_⟩
  · unfold countBaleCodes
    rw [hdata, hscan]
    by_cases h : 14 ≤ n <;> simp [h]
  · unfold balePositions
    rw [hdata, hscan]
    by_cases h : 14 ≤ n
    · simp [h]
      omega
    · simp [h]
  · show decide (13 ≤ ((List.replicate n '1').takeWhile Char.isDigit).length) =
      decide (13 ≤ n)
    rw [takeWhile_digit_replicate]
    simp [List.length_replicate]

-- #### Positivity toolkit for the per-bale collections

theorem parseNumericString_fin (s : String) : ∃ q : ℚ, parseNumericString s = .fin q := by
  unfold parseNumericString
  split
  · exact ⟨0, rfl⟩
  · split
    · next q _ => exact ⟨q, rfl⟩
    · exact ⟨0, rfl⟩

theorem findWithIdx_some {l : List ℚ} {p : ℚ → Nat → Bool} {v : ℚ}
    (h : findWithIdx l p = some v) : ∃ i, p v i = true := by
  unfold findWithIdx at h
  rcases Option.map_eq_some'.mp h with ⟨pr, hfind, hv⟩
  have := List.find?_some hfind
  exact ⟨pr.1, hv ▸ this⟩

theorem foldl_proj_preserve_mem {α β γ : Type} (step : β → α → β) (proj : β → List γ)
    (P : γ → Prop) :
    ∀ (l : List α), (∀ b a, a ∈ l → (∀ y ∈ proj b, P y) → ∀ x ∈ proj (step b a), P x) →
    ∀ (b : β), (∀ y ∈ proj b, P y) → ∀ x ∈ proj (l.foldl step b), P x := by
  intro l
  induction l with
  | nil => intro _ b hb x hx; exact hb x hx
  | cons a rest ih =>
    intro hstep b hb x hx
    exact ih (fun b' a' ha' => hstep b' a' (List.mem_cons_of_mem a ha'))
      (step b a) (hstep b a (List.mem_cons_self a rest) hb) x hx

theorem foldl_proj_preserve {α β γ : Type} (step : β → α → β) (proj : β → List γ)
    (P : γ → Prop)
    (hstep : ∀ b a, (∀ y ∈ proj b, P y) → ∀ x ∈ proj (step b a), P x) :
    ∀ (l : List α) (b : β), (∀ y ∈ proj b, P y) → ∀ x ∈ proj (l.foldl step b), P x :=
  fun l b hb => foldl_proj_preserve_mem step proj P l (fun b' a' _ => hstep b' a') b hb

theorem mem_append_singleton {γ : Type} {x y : γ} {l : List γ} (h : x ∈ l ++ [y]) :
    x ∈ l ∨ x = y := by
  rcases List.mem_append.mp h with h | h
  · exact Or.inl h
  · exact Or.inr (List.mem_singleton.mp h)

theorem mem_append_optToList {x : ℚ} {l : List ℚ} {o : Option ℚ}
    (h : x ∈ l ++ o.toList) : x ∈ l ∨ o = some x := by
  rcases List.mem_append.mp h with h | h
  · exact Or.inl h
  · cases o with
    | none => simp at h
    | some v => simp at h; exact Or.inr (by rw [h])

theorem g4_mic_bound (segs : List (List Char)) (minLen : Nat) :
    ∀ x ∈ (g4CollectValues segs minLen).mic, mkRat 35 10 ≤ x := by
  refine foldl_proj_preserve _ BaleLists.mic (fun x => mkRat 35 10 ≤ x) ?_ segs ⟨[], [], [], [], []⟩ (by simp)
  intro b a hb x hx
  dsimp only at hx
  split at hx
  · exact hb x hx
  · rcases mem_append_optToList hx with h | h
    · exact hb x h
    · rcases findWithIdx_some h with ⟨i, hp⟩
      simp only [Bool.and_eq_true, decide_eq_true_eq] at hp
      exact hp.1.2

theorem g4_uhm_bound (segs : List (List Char)) (minLen : Nat) :
    ∀ x ∈ (g4CollectValues segs minLen).uhm, (1 : ℚ) ≤ x := by
  refine foldl_proj_preserve _ BaleLists.uhm (fun x => (1 : ℚ) ≤ x) ?_ segs ⟨[], [], [], [], []⟩ (by simp)
  intro b a hb x hx
  dsimp only at hx
  split at hx
  · exact hb x hx
  · rcases mem_append_optToList hx with h | h
    · exact hb x h
    · rcases findWithIdx_some h with ⟨i, hp⟩
      simp only [Bool.and_eq_true, decide_eq_true_eq] at hp
      exact hp.1.2

theorem g4_strength_bound (segs : List (List Char)) (minLen : Nat) :
    ∀ x ∈ (g4CollectValues segs minLen).strength, (28 : ℚ) ≤ x := by
  refine foldl_proj_preserve _ BaleLists.strength (fun x => (28 : ℚ) ≤ x) ?_ segs ⟨[], [], [], [], []⟩ (by simp)
  intro b a hb x hx
  dsimp only at hx
  split at hx
  · exact hb x hx
  · rcases mem_append_optToList hx with h | h
    · exact hb x h
    · rcases findWithIdx_some h with ⟨i, hp⟩
      simp only [Bool.and_eq_true, decide_eq_true_eq] at hp
      exact hp.1.2

theorem siagri_mic_bound (segs : List (List Char)) :
    ∀ x ∈ (siagriCollectValues segs).mic, mkRat 35 10 ≤ x := by
  refine foldl_proj_preserve _ BaleLists.mic (fun x => mkRat 35 10 ≤ x) ?_ segs ⟨[], [], [], [], []⟩ (by simp)
  intro b a hb x hx
  dsimp only at hx
  split at hx
  · exact hb x hx
  · rcases mem_append_optToList hx with h | h
    · exact hb x h
    · rcases findWithIdx_some h with ⟨i, hp⟩
      simp only [Bool.and_eq_true, decide_eq_true_eq] at hp
      exact hp.1.2

theorem siagri_uhm_bound (segs : List (List Char)) :
    ∀ x ∈ (siagriCollectValues segs).uhm, (1 : ℚ) ≤ x := by
  refine foldl_proj_preserve _ BaleLists.uhm (fun x => (1 : ℚ) ≤ x) ?_ segs ⟨[], [], [], [], []⟩ (by simp)
  intro b a hb x hx
  dsimp only at hx
  split at hx
  · exact hb x hx
  · rcases mem_append_optToList hx with h | h
    · exact hb x h
    · rcases findWithIdx_some h with ⟨i, hp⟩
      simp only [Bool.and_eq_true, decide_eq_true_eq] at hp
      exact hp.1.2

theorem siagri_strength_bound (segs : List (List Char)) :
    ∀ x ∈ (siagriCollectValues segs).strength, (25 : ℚ) ≤ x := by
  refine foldl_proj_preserve _ BaleLists.strength (fun x => (25 : ℚ) ≤ x) ?_ segs ⟨[], [], [], [], []⟩ (by simp)
  intro b a hb x hx
  dsimp only at hx
  split at hx
  · exact hb x hx
  · rcases mem_append_optToList hx with h | h
    · exact hb x h
    · rcases findWithIdx_some h with ⟨i, hp⟩
      simp only [Bool.and_eq_true, decide_eq_true_eq] at hp
      exact hp.1.2

theorem jsGt_fin_zero (a : ℚ) : jsGt (.fin a) (.fin 0) = decide (0 < a) := rfl

theorem calculateStats_avg_pos (l : List JSNum) (hne : l ≠ [])
    (hpos : ∀ x ∈ l, ∃ q : ℚ, x = .fin q ∧ 0 < q) :
    0 < (calculateStats l).avg := by
  have hfilter : l.filter jsValidSample = l := by
    rw [List.filter_eq_self]
    intro a ha
    rcases hpos a ha with ⟨q, rfl, hq⟩
    simp [jsValidSample, jsGt, JSNum.isNaN, JSNum.isFinite]
    exact hq
  have hvs : validSamples l = l.map JSNum.toQ := by
    unfold validSamples
    rw [hfilter]
  rcases hq : validSamples l with _ | ⟨q, rest⟩
  · rw [hvs] at hq
    exact absurd (List.map_eq_nil_iff.mp hq) hne
  · rw [calculateStats_cons l q rest hq]
    have hmem : ∀ y ∈ q :: rest, 0 < y := by
      intro y hy
      rw [← hq, hvs] at hy
      rcases List.mem_map.mp hy with ⟨x, hx, rfl⟩
      rcases hpos x hx with ⟨q', rfl, hq'⟩
      exact hq'
    show 0 < (q + rest.sum) / ((rest.length + 1 : Nat) : ℚ)
    apply div_pos
    · have h1 : 0 < q := hmem q (List.mem_cons_self q rest)
      have h2 : 0 ≤ rest.sum :=
        List.sum_nonneg (fun y hy => le_of_lt (hmem y (List.mem_cons_of_mem q hy)))
      linarith
    · exact_mod_cast Nat.succ_pos rest.length

theorem mapFin_pos_avg (qs : List ℚ) (c : ℚ) (hc : 0 < c) (hne : qs ≠ [])
    (hbound : ∀ x ∈ qs, c ≤ x) :
    0 < (calculateStats (qs.map .fin)).avg := by
  apply calculateStats_avg_pos
  · simpa using hne
  · intro x hx
    rcases List.mem_map.mp hx with ⟨q, hq, rfl⟩
    exact ⟨q, rfl, lt_of_lt_of_le hc (hbound q hq)⟩

theorem mkRat_35_10_pos : (0 : ℚ) < mkRat 35 10 := by decide

/-- C4 amended: the discard-of-empty-candidates rule holds in the three
extraction paths that implement it — the G4 direct-parse path, the
Siagri path, and the raw-bale spreadsheet path (the latter provided no
cell holds an infinite numeric value): any record they emit carries a
strictly positive micronaire, length or strength average.  The other
paths (generic PDF, Romaneio-com-HVI, G4-with-summary, grouped and
per-row-summary spreadsheet) can emit a record with zero valid samples
in all three. -/
theorem mem_pushIfPos {col : Int} {row : List JSValue} {l : List JSNum} {x : JSNum}
    (h : x ∈ pushIfPos col row l) :
    x ∈ l ∨ (jsGt (parseNumericValue (row.getD col.toNat .undef)) (.fin 0) = true ∧
      x = parseNumericValue (row.getD col.toNat .undef)) := by
  unfold pushIfPos at h
  split at h
  · simp only [] at h
    split at h
    · next hgt => exact (mem_append_singleton h).imp id (fun hx => ⟨hgt, hx⟩)
    · exact Or.inl h
  · exact Or.inl h

theorem mem_pushUhmIfPos {col : Int} {row : List JSValue} {l : List JSNum} {x : JSNum}
    (h : x ∈ pushUhmIfPos col row l) :
    x ∈ l ∨ (jsGt (parseNumericValue (row.getD col.toNat .undef)) (.fin 0) = true ∧
      x = normalizeUhmToInches (parseNumericValue (row.getD col.toNat .undef))) := by
  unfold pushUhmIfPos at h
  split at h
  · simp only [] at h
    split at h
    · next hgt => exact (mem_append_singleton h).imp id (fun hx => ⟨hgt, hx⟩)
    · exact Or.inl h
  · exact Or.inl h

theorem parse_getD_pos {rows : List (List JSValue)} {row : List JSValue} (hrow : row ∈ rows)
    (hfin : ∀ row ∈ rows, ∀ c ∈ row, parseNumericValue c ≠ JSNum.posInf) (i : Nat)
    (hgt : jsGt (parseNumericValue (row.getD i .undef)) (.fin 0) = true) :
    ∃ q : ℚ, parseNumericValue (row.getD i .undef) = .fin q ∧ 0 < q := by
  rcases h' : parseNumericValue (row.getD i .undef) with _ | _ | _ | q
  · rw [h'] at hgt
    exact absurd hgt (by simp [jsGt])
  · by_cases hi : i < row.length
    · rw [List.getD_eq_getElem row .undef hi] at h'
      exact absurd h' (hfin row hrow row[i] (List.getElem_mem hi))
    · rw [List.getD_eq_default row .undef (by omega)] at h'
      exact absurd h' (by decide)
  · rw [h'] at hgt
    exact absurd hgt (by simp [jsGt])
  · rw [h'] at hgt
    rw [jsGt_fin_zero] at hgt
    exact ⟨q, rfl, of_decide_eq_true hgt⟩

theorem normalizeUhm_fin_pos {q : ℚ} (hq : 0 < q) :
    ∃ q' : ℚ, normalizeUhmToInches (.fin q) = .fin q' ∧ 0 < q' := by
  unfold normalizeUhmToInches
  have hle : jsLe (JSNum.fin q) (.fin 0) = false := by
    simp [jsLe, jsGe, jsGt, JSNum.isNaN]
    linarith
  rw [hle]
  simp only [Bool.false_eq_true, if_false]
  by_cases hm : isValueInMillimeters (.fin q) = true
  · rw [if_pos hm]
    refine ⟨ratDiv q (mkRat 254 10), rfl, ?_⟩
    rw [ratDiv_eq]
    apply div_pos hq
    decide
  · rw [if_neg hm]
    exact ⟨q, rfl, hq⟩

/-- The fin-positive invariant of a raw-path value list. -/
def finPos (x : JSNum) : Prop := ∃ q : ℚ, x = .fin q ∧ 0 < q

theorem rawFold_mic_pos (cm : ColumnMap) (rows : List (List JSValue))
    (hfin : ∀ row ∈ rows, ∀ c ∈ row, parseNumericValue c ≠ JSNum.posInf) :
    ∀ x ∈ (rows.foldl (rawStep cm) ⟨[], [], [], [], [], ""⟩).micValues, finPos x := by
  refine foldl_proj_preserve_mem _ RawAcc.micValues finPos rows ?_ _ (by simp)
  intro b row hrow hb x hx
  unfold rawStep at hx
  split at hx
  · exact hb x hx
  · split at hx
    · exact hb x hx
    · rcases mem_pushIfPos hx with h | ⟨hgt, rfl⟩
      · exact hb x h
      · exact parse_getD_pos hrow hfin _ hgt

theorem rawFold_uhm_pos (cm : ColumnMap) (rows : List (List JSValue))
    (hfin : ∀ row ∈ rows, ∀ c ∈ row, parseNumericValue c ≠ JSNum.posInf) :
    ∀ x ∈ (rows.foldl (rawStep cm) ⟨[], [], [], [], [], ""⟩).uhmValues, finPos x := by
  refine foldl_proj_preserve_mem _ RawAcc.uhmValues finPos rows ?_ _ (by simp)
  intro b row hrow hb x hx
  unfold rawStep at hx
  split at hx
  · exact hb x hx
  · split at hx
    · exact hb x hx
    · rcases mem_pushUhmIfPos hx with h | ⟨hgt, rfl⟩
      · exact hb x h
      · rcases parse_getD_pos hrow hfin _ hgt with ⟨q, hq, hqpos⟩
        rw [hq]
        exact normalizeUhm_fin_pos hqpos

theorem rawFold_str_pos (cm : ColumnMap) (rows : List (List JSValue))
    (hfin : ∀ row ∈ rows, ∀ c ∈ row, parseNumericValue c ≠ JSNum.posInf) :
    ∀ x ∈ (rows.foldl (rawStep cm) ⟨[], [], [], [], [], ""⟩).strValues, finPos x := by
  refine foldl_proj_preserve_mem _ RawAcc.strValues finPos rows ?_ _ (by simp)
  intro b row hrow hb x hx
  unfold rawStep at hx
  split at hx
  · exact hb x hx
  · split at hx
    · exact hb x hx
    · rcases mem_pushIfPos hx with h | ⟨hgt, rfl⟩
      · exact hb x h
      · exact parse_getD_pos hrow hfin _ hgt

theorem calculateStats_avg_pos_finPos (l : List JSNum) (hne : l ≠ [])
    (hpos : ∀ x ∈ l, finPos x) : jsGt (JSNum.fin (calculateStats l).avg) (.fin 0) = true := by
  rw [jsGt_fin_zero]
  exact decide_eq_true (calculateStats_avg_pos l hne hpos)

/-- C4 amended: the discard-of-empty-candidates rule holds in the three
extraction paths that implement it — the G4 direct-parse path, the
Siagri path, and the raw-bale spreadsheet path (the latter provided no
cell holds an infinite numeric value): any record they emit carries a
strictly positive micronaire, length or strength average.  The other
paths (generic PDF, Romaneio-com-HVI, G4-with-summary, grouped and
per-row-summary spreadsheet) can emit a record with zero valid samples
in all three. -/
theorem claim_C4_amended :
    (∀ t fn bn bw nb2 r, g4DirectBranch t fn bn bw nb2 = some r →
      jsGt r.micAvg (.fin 0) = true ∨ jsGt r.uhmAvg (.fin 0) = true ∨
      jsGt r.strAvg (.fin 0) = true) ∧
    (∀ t fn bn bw3 nb3 r, siagriBranch t fn bn bw3 nb3 = some r →
      jsGt r.micAvg (.fin 0) = true ∨ jsGt r.uhmAvg (.fin 0) = true ∨
      jsGt r.strAvg (.fin 0) = true) ∧
    (∀ cm rows fn sn r,
      (∀ row ∈ rows, ∀ c ∈ row, parseNumericValue c ≠ JSNum.posInf) →
      rawRecord cm rows fn sn = some r →
      jsGt r.micAvg (.fin 0) = true ∨ jsGt r.uhmAvg (.fin 0) = true ∨
      jsGt r.strAvg (.fin 0) = true) := by
  refine ⟨?_, ?_, ?_⟩
  · intro t fn bn bw nb2 r h
    unfold g4DirectBranch at h
    simp only [] at h
    set L := g4CollectValues (baleSegments t (balePositions t) 400) 8 with hL
    by_cases hg : (L.mic.isEmpty && L.uhm.isEmpty && L.strength.isEmpty) = true
    · rw [if_pos hg] at h
      exact absurd h (by simp)
    · rw [if_neg hg] at h
      have hrec := Option.some.inj h
      subst hrec
      simp only []
      by_cases hm : L.mic = []
      · by_cases hu : L.uhm = []
        · by_cases hs : L.strength = []
          · exact absurd (by simp [hm, hu, hs]) hg
          · refine Or.inr (Or.inr (calculateStats_avg_pos_finPos _ (by simpa using hs) ?_))
            intro x hx
            rcases List.mem_map.mp hx with ⟨q, hq, rfl⟩
            exact ⟨q, rfl, lt_of_lt_of_le (by decide : (0:ℚ) < 28) (g4_strength_bound _ _ q hq)⟩
        · refine Or.inr (Or.inl (calculateStats_avg_pos_finPos _ (by simpa using hu) ?_))
          intro x hx
          rcases List.mem_map.mp hx with ⟨q, hq, rfl⟩
          exact ⟨q, rfl, lt_of_lt_of_le (by decide : (0:ℚ) < 1) (g4_uhm_bound _ _ q hq)⟩
      · refine Or.inl (calculateStats_avg_pos_finPos _ (by simpa using hm) ?_)
        intro x hx
        rcases List.mem_map.mp hx with ⟨q, hq, rfl⟩
        exact ⟨q, rfl, lt_of_lt_of_le mkRat_35_10_pos (g4_mic_bound _ _ q hq)⟩
  · intro t fn bn bw3 nb3 r h
    unfold siagriBranch at h
    simp only [] at h
    set L := siagriCollectValues (baleSegments t (balePositions t) 200) with hL
    by_cases hg : (L.mic.isEmpty && L.uhm.isEmpty && L.strength.isEmpty) = true
    · rw [if_pos hg] at h
      exact absurd h (by simp)
    · rw [if_neg hg] at h
      have hrec := Option.some.inj h
      subst hrec
      simp only []
      by_cases hm : L.mic = []
      · by_cases hu : L.uhm = []
        · by_cases hs : L.strength = []
          · exact absurd (by simp [hm, hu, hs]) hg
          · refine Or.inr (Or.inr (calculateStats_avg_pos_finPos _ (by simpa using hs) ?_))
            intro x hx
            rcases List.mem_map.mp hx with ⟨q, hq, rfl⟩
            exact ⟨q, rfl, lt_of_lt_of_le (by decide : (0:ℚ) < 25) (siagri_strength_bound _ q hq)⟩
        · refine Or.inr (Or.inl (calculateStats_avg_pos_finPos _ (by simpa using hu) ?_))
          intro x hx
          rcases List.mem_map.mp hx with ⟨q, hq, rfl⟩
          exact ⟨q, rfl, lt_of_lt_of_le (by decide : (0:ℚ) < 1) (siagri_uhm_bound _ q hq)⟩
      · refine Or.inl (calculateStats_avg_pos_finPos _ (by simpa using hm) ?_)
        intro x hx
        rcases List.mem_map.mp hx with ⟨q, hq, rfl⟩
        exact ⟨q, rfl, lt_of_lt_of_le mkRat_35_10_pos (siagri_mic_bound _ q hq)⟩
  · intro cm rows fn sn r hfin h
    unfold rawRecord at h
    simp only [] at h
    set A := rows.foldl (rawStep cm) ⟨[], [], [], [], [], ""⟩ with hA
    by_cases hg : (A.micValues.isEmpty && A.uhmValues.isEmpty && A.strValues.isEmpty) = true
    · rw [if_pos hg] at h
      exact absurd h (by simp)
    · rw [if_neg hg] at h
      have hrec := Option.some.inj h
      subst hrec
      simp only []
      by_cases hm : A.micValues = []
      · by_cases hu : A.uhmValues = []
        · by_cases hs : A.strValues = []
          · exact absurd (by simp [hm, hu, hs]) hg
          · exact Or.inr (Or.inr (calculateStats_avg_pos_finPos _ hs
              (fun x hx => rawFold_str_pos cm rows hfin x (hA ▸ hx))))
        · exact Or.inr (Or.inl (calculateStats_avg_pos_finPos _ hu
            (fun x hx => rawFold_uhm_pos cm rows hfin x (hA ▸ hx))))
      · exact Or.inl (calculateStats_avg_pos_finPos _ hm
          (fun x hx => rawFold_mic_pos cm rows hfin x (hA ▸ hx)))

-- #### Claim C7: spinningConsistencyAvg is null or strictly positive

/-- The C7 invariant: a record's SCI average is null or strictly
positive. -/
def sciAvgOK (r : BatchData) : Prop :=
  r.sciAvg = none ∨ ∃ v, r.sciAvg = some v ∧ jsGt v (.fin 0) = true

theorem sciOpt_ok (avg : ℚ) :
    (if 0 < avg then some (JSNum.fin avg) else none) = none ∨
    ∃ v, (if 0 < avg then some (JSNum.fin avg) else none) = some v ∧
      jsGt v (.fin 0) = true := by
  split
  · next hpos =>
    exact Or.inr ⟨.fin avg, rfl, by rw [jsGt_fin_zero]; exact decide_eq_true hpos⟩
  · exact Or.inl rfl

theorem sciCond_pos (tok : String) (nv v : JSNum)
    (hf : (if (jsGe (parseNumericValue (.str tok)) (.fin 100) &&
          jsLe (parseNumericValue (.str tok)) (.fin 180) &&
          jsGe nv (.fin 2000) && jsLe nv (.fin 2500)) = true
        then some (parseNumericValue (.str tok)) else none) = some v) :
    jsGt v (.fin 0) = true := by
  split at hf
  · next hcond =>
    have hv := Option.some.inj hf
    subst hv
    simp only [Bool.and_eq_true] at hcond
    have hge := hcond.1.1.1
    rcases parseNumericString_fin tok with ⟨q, hq⟩
    rw [show parseNumericValue (.str tok) = parseNumericString tok from rfl] at hge ⊢
    rw [hq] at hge ⊢
    rw [show jsGe (JSNum.fin q) (.fin 100) = !decide (q < 100) from rfl] at hge
    have hnl : ¬ (q < 100) := by
      intro hlt
      simp [hlt] at hge
    rw [jsGt_fin_zero]
    exact decide_eq_true (by linarith [not_lt.mp hnl])
  · exact absurd hf (by simp)

theorem sciScanFromTokens_pos (toks : List String) (v : JSNum)
    (h : sciScanFromTokens toks = some v) : jsGt v (.fin 0) = true := by
  unfold sciScanFromTokens at h
  rcases List.exists_of_findSome?_eq_some h with ⟨i, hmem, hf⟩
  simp only [] at hf
  split at hf
  · exact sciCond_pos _ _ v hf
  · exact sciCond_pos _ _ v hf

theorem sciScanMedia_pos (t : String) (v : JSNum) (h : sciScanMedia t = some v) :
    jsGt v (.fin 0) = true := by
  unfold sciScanMedia at h
  split at h
  · exact absurd h (by simp)
  · exact sciScanFromTokens_pos _ v h

theorem sciOK_optElim (o : Option BatchData) (k : BatchData)
    (ho : ∀ r, o = some r → sciAvgOK r) (hk : sciAvgOK k) :
    sciAvgOK (o.getD k) := by
  cases o with
  | none => exact hk
  | some r => exact ho r rfl

theorem sciOK_romaneio (t bn bw fn : String) (r : BatchData)
    (h : romaneioBranch t bn bw fn = some r) : sciAvgOK r := by
  unfold romaneioBranch at h
  simp only [] at h
  split at h
  · exact absurd h (by simp)
  · have hr := Option.some.inj h
    subst hr
    unfold sciAvgOK
    simp only []
    rcases hs : sciScanMedia t with _ | v
    · exact Or.inl rfl
    · exact Or.inr ⟨v, rfl, sciScanMedia_pos t v hs⟩

theorem sciOK_g4Main (t fn bn bw : String) (c : Nat) (m : List Char × List (List Char)) :
    sciAvgOK (g4MainBranch t fn bn bw c m) := by
  unfold sciAvgOK g4MainBranch
  simp only []
  exact sciOpt_ok _

theorem sciOK_g4Direct (t fn bn bw nb2 : String) (r : BatchData)
    (h : g4DirectBranch t fn bn bw nb2 = some r) : sciAvgOK r := by
  unfold g4DirectBranch at h
  simp only [] at h
  split at h
  · exact absurd h (by simp)
  · have hr := Option.some.inj h
    subst hr
    unfold sciAvgOK
    simp only []
    exact sciOpt_ok _

theorem sciOK_siagri (t fn bn bw3 nb3 : String) (r : BatchData)
    (h : siagriBranch t fn bn bw3 nb3 = some r) : sciAvgOK r := by
  unfold siagriBranch at h
  simp only [] at h
  split at h
  · exact absurd h (by simp)
  · have hr := Option.some.inj h
    subst hr
    exact Or.inl rfl

theorem sciOK_pdfStage4 (t fn bn nb bw : String) : sciAvgOK (pdfStage4 t fn bn nb bw) := by
  unfold sciAvgOK pdfStage4
  simp only []
  exact sciOpt_ok _

theorem sciOK_pdfStage3 (t fn bn nb bw : String) : sciAvgOK (pdfStage3 t fn bn nb bw) := by
  unfold pdfStage3
  simp only []
  apply sciOK_optElim
  · intro r h
    split at h
    · exact sciOK_siagri _ _ _ _ _ r h
    · exact absurd h (by simp)
  · exact sciOK_pdfStage4 _ _ _ _ _

theorem sciOK_pdfStage2 (t fn bn nb bw : String) : sciAvgOK (pdfStage2 t fn bn nb bw) := by
  unfold pdfStage2
  simp only []
  apply sciOK_optElim
  · intro r h
    split at h
    · next =>
      rcases Option.map_eq_some'.mp h with ⟨m, _, hr⟩
      rw [← hr]
      exact sciOK_g4Main _ _ _ _ _ _
    · exact absurd h (by simp)
  · apply sciOK_optElim
    · intro r h
      split at h
      · exact sciOK_g4Direct _ _ _ _ _ r h
      · exact absurd h (by simp)
    · exact sciOK_pdfStage3 _ _ _ _ _

theorem sciOK_extractPDF (t fn : String) : sciAvgOK (extractDataFromPDF t fn) := by
  unfold extractDataFromPDF
  simp only []
  apply sciOK_optElim
  · intro r h
    split at h
    · exact sciOK_romaneio _ _ _ _ r h
    · exact absurd h (by simp)
  · exact sciOK_pdfStage2 _ _ _ _ _

theorem sciOK_grouped (cm : ColumnMap) (rows : List (List JSValue)) (fn : String)
    (r : BatchData) (h : r ∈ groupedRecords cm rows fn) : sciAvgOK r := by
  unfold groupedRecords at h
  rcases List.mem_map.mp h with ⟨p, _, hr⟩
  rw [← hr]
  unfold sciAvgOK
  simp only []
  exact sciOpt_ok _

theorem summarySciAvg_ok (o : Option JSNum) :
    summarySciAvg o = none ∨ ∃ v, summarySciAvg o = some v ∧ jsGt v (.fin 0) = true := by
  cases o with
  | none => exact Or.inl rfl
  | some sv =>
    by_cases hcond : (jsTruthy sv && jsGt sv (JSNum.fin 0)) = true
    · refine Or.inr ⟨sv, ?_, ?_⟩
      · simp only [summarySciAvg]
        rw [if_pos hcond]
      · simp only [Bool.and_eq_true] at hcond
        exact hcond.2
    · apply Or.inl
      simp only [summarySciAvg]
      rw [if_neg hcond]

theorem sciOK_summary (cm : ColumnMap) (rows : List (List JSValue)) (fn : String)
    (r : BatchData) (h : r ∈ summaryRecords cm rows fn) : sciAvgOK r := by
  unfold summaryRecords at h
  rcases List.mem_filterMap.mp h with ⟨row, _, hrow⟩
  split at hrow
  · exact absurd hrow (by simp)
  · split at hrow
    · exact absurd hrow (by simp)
    · simp only [] at hrow
      split at hrow
      · exact absurd hrow (by simp)
      · have hr := Option.some.inj hrow
        subst hr
        unfold sciAvgOK
        dsimp only []
        exact summarySciAvg_ok _

theorem sciOK_raw (cm : ColumnMap) (rows : List (List JSValue)) (fn sn : String)
    (r : BatchData) (h : rawRecord cm rows fn sn = some r) : sciAvgOK r := by
  unfold rawRecord at h
  simp only [] at h
  split at h
  · exact absurd h (by simp)
  · have hr := Option.some.inj h
    subst hr
    unfold sciAvgOK
    simp only []
    exact sciOpt_ok _

theorem sciOK_processSheet (rawData : List (List JSValue)) (fn sn : String)
    (r : BatchData) (h : r ∈ processSheet rawData fn sn) : sciAvgOK r := by
  unfold processSheet at h
  split at h
  · exact absurd h (by simp)
  · split at h
    · exact absurd h (by simp)
    · next p hr =>
      simp only [] at h
      split at h
      · exact sciOK_grouped _ _ _ r h
      · split at h
        · exact sciOK_summary _ _ _ r h
        · rcases ho : rawRecord (mkColumnMap p.2) (rawData.drop (p.1 + 1)) fn sn with _ | r'
          · rw [ho] at h
            simp at h
          · rw [ho] at h
            simp only [Option.toList_some, List.mem_singleton] at h
            subst h
            exact sciOK_raw _ _ _ _ _ ho

/-- C7: every LotRecord emitted by any extractor — the PDF extractor on
any input, and every record of any spreadsheet sheet — has
`spinningConsistencyAvg` either null or strictly positive; a computed
average over zero valid SCI samples yields null, never 0. -/
theorem claim_C7_sciAvg :
    (∀ fullText fileName : String, sciAvgOK (extractDataFromPDF fullText fileName)) ∧
    (∀ rawData fileName sheetName, ∀ r ∈ processSheet rawData fileName sheetName,
      sciAvgOK r) :=
  ⟨sciOK_extractPDF, fun rawData fn sn r h => sciOK_processSheet rawData fn sn r h⟩

/-- A throwaway default record for `Option.getD`. -/
def emptyBatch : BatchData :=
  ⟨"", "", "", .fin 0, .fin 0, .fin 0, .fin 0, .fin 0, .fin 0, .fin 0, .fin 0, .fin 0,
   none, ""⟩

def wC4cm : ColumnMap := ⟨0, -1, -1, -1, -1, -1, -1, -1, -1, -1⟩

def wC4rows : List (List JSValue) := [[.str "4,5", .str "x", .str "y"]]

def wC4rec : BatchData := (rawRecord wC4cm wC4rows "w.xlsx" "S").getD emptyBatch

/-- C4 witness: a one-row raw sheet with a finite mic cell satisfies the
no-infinite-cell hypothesis and yields a record with a positive average. -/
theorem claim_C4_witness :
    rawRecord wC4cm wC4rows "w.xlsx" "S" = some wC4rec ∧
    (jsGt wC4rec.micAvg (JSNum.fin 0) = true ∨ jsGt wC4rec.uhmAvg (JSNum.fin 0) = true ∨
      jsGt wC4rec.strAvg (JSNum.fin 0) = true) :=
  ⟨by decide, claim_C4_amended.2.2 wC4cm wC4rows "w.xlsx" "S" wC4rec (by decide) (by decide)⟩

def wC7raw : List (List JSValue) :=
  [[.str "lote", .str "micronaire", .str "resistência"],
   [.str "7", .str "4,5", .str "29"]]

def wC7rec : BatchData := (processSheet wC7raw "w.xlsx" "S").getD 0 emptyBatch

/-- C7 witness: the single record of a concrete grouped sheet is a member
of its output and has a null-or-positive SCI average. -/
theorem claim_C7_witness :
    wC7rec ∈ processSheet wC7raw "w.xlsx" "S" ∧ sciAvgOK wC7rec :=
  ⟨by decide, claim_C7_sciAvg.2 wC7raw "w.xlsx" "S" wC7rec (by decide)⟩

-- #### Claim C6: the grouped path's bale count

/-- First-match lookup in the grouped lot map, defaulting to a fresh
accumulator (the `lotMap.get(lotKey) ?? fresh` of pdf-processor.ts:539). -/
def lookupAcc : List (String × LotAcc) → String → LotAcc
  | [], _ => emptyLotAcc
  | (k', a) :: rest, k => if k' = k then a else lookupAcc rest k

/-- The per-lot bale-count total actually accumulated by the grouped
path: over the kept rows of the lot key, each row adds
`baleContribution` (`baleCountValue || 1`). -/
def lotBaleSum (cm : ColumnMap) (key : String) (rows : List (List JSValue)) : JSNum :=
  rows.foldl (fun a row =>
    if groupedRowKept cm row = true ∧ lotKeyOf cm row = key then
      jsAdd a (baleContribution cm row)
    else a) (.fin 0)

/-- The bale-count contribution the spec describes: the parsed value of
the bale-count column when that column exists, 1 only when it does not. -/
def specBaleContribution (cm : ColumnMap) (row : List JSValue) : JSNum :=
  if 0 ≤ cm.baleCount then parseNumericValue (row.getD cm.baleCount.toNat .undef)
  else .fin 1

/-- The per-lot bale-count total under the spec's contribution rule. -/
def specLotBaleSum (cm : ColumnMap) (key : String) (rows : List (List JSValue)) : JSNum :=
  rows.foldl (fun a row =>
    if groupedRowKept cm row = true ∧ lotKeyOf cm row = key then
      jsAdd a (specBaleContribution cm row)
    else a) (.fin 0)

theorem lookupAcc_updateLot (key k : String) (f : LotAcc → LotAcc) :
    ∀ m, lookupAcc (updateLot m key f) k =
      if key = k then f (lookupAcc m k) else lookupAcc m k := by
  intro m
  induction m with
  | nil => rfl
  | cons p rest ih =>
    obtain ⟨q, a⟩ := p
    by_cases h1 : q = key
    · subst h1
      by_cases h2 : q = k
      · subst h2
        simp [updateLot, lookupAcc]
      · simp [updateLot, lookupAcc, h2]
    · by_cases h2 : q = k
      · subst h2
        have hne : ¬ key = q := fun h => h1 h.symm
        simp [updateLot, lookupAcc, h1, hne]
      · simp [updateLot, lookupAcc, h1, h2, ih]

theorem lookupAcc_groupedStep (cm : ColumnMap) (m : List (String × LotAcc))
    (row : List JSValue) (k : String) :
    lookupAcc (groupedStep cm m row) k =
      if groupedRowKept cm row = true ∧ lotKeyOf cm row = k then
        accAddRow cm row (lookupAcc m k)
      else lookupAcc m k := by
  unfold groupedStep
  by_cases hk : groupedRowKept cm row = true
  · rw [if_pos hk, lookupAcc_updateLot]
    by_cases hq : lotKeyOf cm row = k
    · rw [if_pos hq, if_pos ⟨hk, hq⟩]
    · rw [if_neg hq, if_neg (fun h => hq h.2)]
  · rw [if_neg hk, if_neg (fun h => hk h.1)]

theorem groupedFold_lookup_baleCount (cm : ColumnMap) (k : String) :
    ∀ (rows : List (List JSValue)) (m : List (String × LotAcc)),
      (lookupAcc (rows.foldl (groupedStep cm) m) k).baleCount =
        rows.foldl (fun a row =>
          if groupedRowKept cm row = true ∧ lotKeyOf cm row = k then
            jsAdd a (baleContribution cm row)
          else a) ((lookupAcc m k).baleCount) := by
  intro rows
  induction rows with
  | nil => intro m; rfl
  | cons row rest ih =>
    intro m
    simp only [List.foldl_cons]
    rw [ih (groupedStep cm m row)]
    congr 1
    rw [lookupAcc_groupedStep]
    by_cases h : groupedRowKept cm row = true ∧ lotKeyOf cm row = k
    · rw [if_pos h, if_pos h]
      rfl
    · rw [if_neg h, if_neg h]

theorem keys_updateLot (key : String) (f : LotAcc → LotAcc) :
    ∀ m : List (String × LotAcc), (updateLot m key f).map Prod.fst =
      if key ∈ m.map Prod.fst then m.map Prod.fst else m.map Prod.fst ++ [key] := by
  intro m
  induction m with
  | nil => simp [updateLot]
  | cons p rest ih =>
    obtain ⟨q, a⟩ := p
    by_cases h1 : q = key
    · subst h1
      simp [updateLot]
    · simp only [updateLot, if_neg h1, List.map_cons, ih, List.mem_cons]
      have hne : ¬ key = q := fun h => h1 h.symm
      by_cases h2 : key ∈ rest.map Prod.fst
      · simp [h2, hne]
      · simp [h2, hne]

theorem nodup_updateLot (key : String) (f : LotAcc → LotAcc)
    (m : List (String × LotAcc)) (h : (m.map Prod.fst).Nodup) :
    ((updateLot m key f).map Prod.fst).Nodup := by
  rw [keys_updateLot]
  by_cases hmem : key ∈ m.map Prod.fst
  · rwa [if_pos hmem]
  · rw [if_neg hmem]
    simp [List.nodup_append, h, hmem]

theorem nodup_groupedFold (cm : ColumnMap) :
    ∀ (rows : List (List JSValue)) (m : List (String × LotAcc)),
      (m.map Prod.fst).Nodup → ((rows.foldl (groupedStep cm) m).map Prod.fst).Nodup := by
  intro rows
  induction rows with
  | nil => intro m hm; exact hm
  | cons row rest ih =>
    intro m hm
    simp only [List.foldl_cons]
    apply ih
    unfold groupedStep
    split
    · exact nodup_updateLot _ _ _ hm
    · exact hm

theorem mem_lookupAcc :
    ∀ m : List (String × LotAcc), (m.map Prod.fst).Nodup →
      ∀ p ∈ m, lookupAcc m p.1 = p.2 := by
  intro m
  induction m with
  | nil => intro _ p hp; exact absurd hp (by simp)
  | cons q rest ih =>
    intro hnd p hp
    obtain ⟨k', a⟩ := q
    rcases List.mem_cons.mp hp with h | h
    · subst h
      simp [lookupAcc]
    · have hk : k' ≠ p.1 := by
        intro he
        have : p.1 ∈ rest.map Prod.fst := List.mem_map_of_mem Prod.fst h
        rw [← he] at this
        exact (List.nodup_cons.mp hnd).1 this
      simp only [lookupAcc, if_neg hk]
      exact ih (List.nodup_cons.mp hnd).2 p h

/-- The concrete grouped sheet of the C6 counterexample: a bale-count
column exists and the single kept row's bale-count cell parses to 0. -/
def cC6rows : List (List JSValue) :=
  [[.str "lote", .str "micronaire", .str "resistência", .str "qtde fardos"],
   [.str "7", .str "4,1", .str "29", .str "0"]]

/-- C6 counterexample: on a grouped sheet whose bale-count cell is "0",
the emitted record's numberOfBales is "1" (the code falls back to 1 on
any falsy parsed value, `baleCountValue || 1`), while the sum of the
spec's per-row contributions — the parsed bale-count value whenever the
column exists — is 0. -/
theorem claim_C6_counterexample :
    ∃ r ∈ processSheet cC6rows "c.xlsx" "S",
      r.numberOfBales ≠
        jsNumToString (specLotBaleSum (mkColumnMap (rowAsStrings (cC6rows.getD 0 [])))
          r.batchNumber (cC6rows.drop 1)) := by decide

/-- C6 amended: every record of the grouped spreadsheet path carries as
numberOfBales the rendered sum, over the kept rows of its lot key, of
the code's per-row contribution `baleCountValue || 1`: the parsed
bale-count value when the column exists and that value is truthy
(non-zero, non-NaN), and 1 otherwise — not the raw parsed value the
spec describes. -/
theorem claim_C6_amended (cm : ColumnMap) (rows : List (List JSValue)) (fn : String)
    (r : BatchData) (h : r ∈ groupedRecords cm rows fn) :
    r.numberOfBales = jsNumToString (lotBaleSum cm r.batchNumber rows) := by
  unfold groupedRecords at h
  rcases List.mem_map.mp h with ⟨p, hp, hr⟩
  subst hr
  show jsNumToString p.2.baleCount = jsNumToString (lotBaleSum cm p.1 rows)
  congr 1
  have hnd := nodup_groupedFold cm rows [] (by simp)
  have hl := mem_lookupAcc (groupedFold cm rows) hnd p hp
  have hb := groupedFold_lookup_baleCount cm p.1 rows []
  unfold groupedFold at hl
  rw [hl] at hb
  exact hb

def wC6cm : ColumnMap := ⟨1, -1, 2, -1, 0, -1, -1, 3, -1, -1⟩

def wC6rows : List (List JSValue) := [[.str "7", .str "4,1", .str "29", .str "2"]]

def wC6rec : BatchData := (groupedRecords wC6cm wC6rows "w.xlsx").getD 0 emptyBatch

/-- C6 witness: a concrete grouped record's numberOfBales is the rendered
lot bale-count sum. -/
theorem claim_C6_witness :
    wC6rec ∈ groupedRecords wC6cm wC6rows "w.xlsx" ∧
    wC6rec.numberOfBales = jsNumToString (lotBaleSum wC6cm wC6rec.batchNumber wC6rows) :=
  ⟨by decide, claim_C6_amended wC6cm wC6rows "w.xlsx" wC6rec (by decide)⟩

-- #### Claim C8: an unsupported extension aborts the batch

theorem processLoop_append_ok :
    ∀ (pre l : List MFile) (acc : List BatchData),
      (∀ f ∈ pre, ∃ d, processOne f = .ok d) →
      ∃ acc', processLoop (pre ++ l) acc = processLoop l acc' := by
  intro pre
  induction pre with
  | nil => intro l acc _; exact ⟨acc, rfl⟩
  | cons f rest ih =>
    intro l acc hok
    obtain ⟨d, hd⟩ := hok f (List.mem_cons_self f rest)
    simp only [List.cons_append, processLoop, hd]
    exact ih l (acc ++ d) (fun g hg => hok g (List.mem_cons_of_mem f hg))

/-- C8: when every file before it parses, a file whose extension is
neither pdf, xlsx nor xls makes `processFilesWithData` fail with an
error naming that file (`Falha ao processar <name>: Formato não
suportado: <ext>`); the files after it play no part in the result and no
result rows are produced. -/
theorem claim_C8_unsupported (pre rest : List MFile) (bad : MFile)
    (hpre : ∀ f ∈ pre, ∃ d, processOne f = .ok d)
    (hx : extOf bad.name ≠ "xlsx") (hy : extOf bad.name ≠ "xls")
    (hz : extOf bad.name ≠ "pdf") :
    processFilesWithData (pre ++ bad :: rest) =
      .error ("Falha ao processar " ++ bad.name ++ ": " ++
        ("Formato não suportado: " ++ extOf bad.name)) := by
  have hbad : processOne bad = .error ("Formato não suportado: " ++ extOf bad.name) := by
    unfold processOne
    rw [if_neg (by simp [hx, hy]), if_neg hz]
  obtain ⟨acc', hacc⟩ := processLoop_append_ok pre (bad :: rest) [] hpre
  unfold processFilesWithData
  rw [hacc]
  simp only [processLoop, hbad]

def wC8pre : List MFile := [⟨"a.pdf", .pdfText ""⟩]

def wC8bad : MFile := ⟨"b.txt", .pdfText ""⟩

def wC8rest : List MFile := [⟨"c.pdf", .pdfText ""⟩]

/-- C8 witness: a batch of a good pdf, an unsupported .txt and a further
pdf fails with the message naming the .txt file. -/
theorem claim_C8_witness :
    (∀ f ∈ wC8pre, ∃ d, processOne f = Except.ok d) ∧
    processFilesWithData (wC8pre ++ wC8bad :: wC8rest) =
      .error ("Falha ao processar " ++ wC8bad.name ++ ": " ++
        ("Formato não suportado: " ++ extOf wC8bad.name)) := by
  have hpre : ∀ f ∈ wC8pre, ∃ d, processOne f = Except.ok d := by
    intro f hf
    simp only [wC8pre, List.mem_singleton] at hf
    subst hf
    exact ⟨[extractDataFromPDF "" "a.pdf"], rfl⟩
  exact ⟨hpre, claim_C8_unsupported wC8pre wC8rest wC8bad hpre
    (by decide) (by decide) (by decide)⟩

-- #### Claim C9: the batch entry point is deterministic

theorem mfile_ext (a b : MFile) (hn : a.name = b.name) (hc : a.content = b.content) :
    a = b := by
  cases a
  cases b
  cases hn
  cases hc
  rfl

/-- C9: `processFilesWithData` is a pure function of the ordered file
list: two batches of the same length whose files agree pairwise in name
and extracted content give identical results — same records, same field
values, same order, same rendered rows. -/
theorem claim_C9_deterministic (files1 files2 : List MFile)
    (hlen : files1.length = files2.length)
    (hpt : ∀ (i : Nat) (h1 : i < files1.length) (h2 : i < files2.length),
      (files1.get ⟨i, h1⟩).name = (files2.get ⟨i, h2⟩).name ∧
      (files1.get ⟨i, h1⟩).content = (files2.get ⟨i, h2⟩).content) :
    processFilesWithData files1 = processFilesWithData files2 := by
  have he : files1 = files2 := by
    apply List.ext_get hlen
    intro i h1 h2
    obtain ⟨hn, hc⟩ := hpt i h1 h2
    exact mfile_ext _ _ hn hc
  rw [he]

def wC9a : List MFile := [⟨"a.pdf", .pdfText "x"⟩]

def wC9b : List MFile := [⟨"a.pdf", .pdfText "x"⟩]

/-- C9 witness: two identical one-file batches give the same result. -/
theorem claim_C9_witness :
    wC9a.length = wC9b.length ∧ processFilesWithData wC9a = processFilesWithData wC9b := by
  refine ⟨rfl, claim_C9_deterministic wC9a wC9b rfl ?_⟩
  intro i h1 h2
  simp only [wC9a, wC9b, List.length_singleton] at h1
  interval_cases i
  exact ⟨rfl, rfl⟩
